import Mathlib

/-!
Shallow embedding of the scraping-orchestration core of `paperscraper`
(`paperscraper/scraper.py` and `paperscraper/utils.py`), together with
theorems settling the specification claims about it.

Conventions of the embedding:
* Python exceptions are modelled by the `PyErr` type; a Python function that
  may raise returns `Except PyErr α`.
* Python function objects (strategy callables) are modelled by `PyFunc`, an
  identity (`id`) plus the `__name__` string; the behaviour of a strategy
  invocation is supplied to `scrape` as an environment
  `env : Nat → Except PyErr Bool` mapping the function identity to the result
  of one awaited invocation (an `asyncio.TimeoutError` from `asyncio.wait_for`
  is just one of the `PyErr` outcomes).
* Python dicts keyed by strings are association lists with unique keys,
  updated in place (`omSet`), preserving insertion order.
* `self.callback` is fixed at construction time in the source; it is passed
  to `scrape` as an explicit parameter `cb` here.
-/

/-- Python exception values, distinguished only as far as the code under
`except` clauses distinguishes them. -/
inductive PyErr where
  | runtimeError
  | keyError
  | valueError
  | notImplementedError
  | timeoutError
  | otherError
  deriving DecidableEq, Repr

/-- Python function object: an identity and its `__name__`. -/
structure PyFunc where
  id : Nat
  pyName : String
  deriving DecidableEq, Repr

/-- Embeds the dataclass `ScraperFunction` of `scraper.py`. The `kwargs`
dict holds at most the key `"session"`; whether it is present is recorded in
`kwargs_session` (the session object itself plays no role in the registry
logic). -/
structure ScraperFunction where
  function : PyFunc
  priority : Int
  kwargs_session : Bool
  name : String
  check_pdf : Bool
  deriving DecidableEq, Repr

instance : Inhabited ScraperFunction :=
  ⟨⟨⟨0, ""⟩, 0, false, "", false⟩⟩

/-- Embeds the mutable state of a `Scraper` instance: the registry list
`self.scrapers` and the derived bucket list `self.sorted_scrapers`. -/
structure Scraper where
  scrapers : List ScraperFunction
  sorted_scrapers : List (List ScraperFunction)
  deriving Repr

/-- Embeds `Scraper.__init__`: both lists start empty. -/
def Scraper.init : Scraper := ⟨[], []⟩

/-- Stable insertion into a priority-descending list: the new element goes
before the first element whose priority is `≤` its own, hence after all
earlier elements of equal priority. -/
def insertByPriorityDesc (s : ScraperFunction) :
    List ScraperFunction → List ScraperFunction
  | [] => [s]
  | t :: ts =>
    if t.priority ≤ s.priority then s :: t :: ts
    else t :: insertByPriorityDesc s ts

/-- Embeds `self.scrapers.sort(key=lambda x: x.priority, reverse=True)`:
Python's sort is stable, so this equals stable insertion sort by descending
priority. -/
def sortByPriorityDesc (l : List ScraperFunction) : List ScraperFunction :=
  l.foldr insertByPriorityDesc []

/-- Inserts a priority value into an ascending duplicate-free list, keeping
it ascending and duplicate-free. -/
def insertPriorityAsc (x : Int) : List Int → List Int
  | [] => [x]
  | y :: ys =>
    if x < y then x :: y :: ys
    else if x = y then y :: ys
    else y :: insertPriorityAsc x ys

/-- Embeds `sorted({s.priority for s in self.scrapers})`: the ascending,
duplicate-free list of priorities present in the registry. -/
def sortedPriorities (l : List ScraperFunction) : List Int :=
  l.foldr (fun s acc => insertPriorityAsc s.priority acc) []

/-- Embeds `Scraper._build_sorted_scrapers`: one bucket per present priority
value, ascending by priority, each bucket the registry-order sublist of
strategies having that priority. -/
def build_sorted_scrapers (l : List ScraperFunction) :
    List (List ScraperFunction) :=
  (sortedPriorities l).map (fun p => l.filter (fun s => s.priority == p))

/-- Embeds `Scraper.register_scraper`: resolve the display name (default:
`func.__name__.replace("_scraper", "")`), append a new record, stably sort by
descending priority, rebuild the buckets. `attach_session` only records
whether a throttled session was placed into the kwargs dict. -/
def register_scraper (sc : Scraper) (func : PyFunc) (attach_session : Bool)
    (priority : Int) (name : Option String) (check : Bool) : Scraper :=
  let name' := match name with
    | some n => n
    | none => func.pyName.replace "_scraper" ""
  let scrapers' := sortByPriorityDesc
    (sc.scrapers ++ [ScraperFunction.mk func priority attach_session name' check])
  { scrapers := scrapers', sorted_scrapers := build_sorted_scrapers scrapers' }

/-- Embeds the loop body of `Scraper.deregister_scraper`: pop the first
record whose name matches, if any, leaving the rest untouched. -/
def removeFirstByName (name : String) :
    List ScraperFunction → List ScraperFunction
  | [] => []
  | s :: rest =>
    if s.name == name then rest else s :: removeFirstByName name rest

/-- Embeds `Scraper.deregister_scraper`: remove the first matching record and
rebuild the buckets. -/
def deregister_scraper (sc : Scraper) (name : String) : Scraper :=
  let scrapers' := removeFirstByName name sc.scrapers
  { scrapers := scrapers', sorted_scrapers := build_sorted_scrapers scrapers' }

/-- Embeds the paper dict as far as `scrape`/`batch_scrape` read it: the
`"title"` and `"paperId"` keys, `none` meaning the key is absent (so that
subscripting raises `KeyError`). -/
structure Paper where
  title : Option String
  paperId : Option String
  deriving DecidableEq, Repr

/-- Embeds the subscript access `paper["title"]`, which raises `KeyError`
when the key is absent. -/
def Paper.getTitle (p : Paper) : Except PyErr String :=
  match p.title with
  | some t => .ok t
  | none => .error .keyError

/-- Embeds the f-string access `paper["paperId"]`, which raises `KeyError`
when the key is absent. -/
def Paper.getPaperId (p : Paper) : Except PyErr String :=
  match p.paperId with
  | some t => .ok t
  | none => .error .keyError

/-- Python string-keyed dict with string values: an association list with
unique keys in insertion order. -/
abbrev OutcomeMap := List (String × String)

/-- Embeds dict assignment `m[k] = v`: overwrite in place when the key is
present, append otherwise. -/
def omSet (m : OutcomeMap) (k v : String) : OutcomeMap :=
  match m with
  | [] => [(k, v)]
  | (k0, v0) :: rest =>
    if k0 = k then (k0, v) :: rest else (k0, v0) :: omSet rest k v

/-- Embeds dict lookup `m.get(k)`. -/
def omGet (m : OutcomeMap) (k : String) : Option String :=
  match m with
  | [] => none
  | (k0, v0) :: rest => if k0 = k then some v0 else omGet rest k

/-- Embeds `{s.name: "none" for s in self.scrapers}`. -/
def omInit (l : List ScraperFunction) : OutcomeMap :=
  l.foldl (fun m s => omSet m s.name "none") []

/-- Observer callback `self.callback`: awaited with `paper["title"]` and the
outcome dict, and may itself raise. -/
abbrev Cb := String → OutcomeMap → Except PyErr Unit

/-- Result environment for strategy invocations: the result of one awaited
`asyncio.wait_for(scraper.function(paper, path, **scraper.kwargs), timeout)`.
An `.error` covers any raised exception, `asyncio.TimeoutError` included. -/
abbrev StratEnv := ScraperFunction → Paper → String → Except PyErr Bool

/-- Mutable observables of one `scrape` call: the `scrape_result` dict, the
names of strategies invoked so far (in invocation order), and the calls made
to the observer callback with their argument maps. -/
structure ScrapeTrace where
  m : OutcomeMap
  invoked : List String
  cbs : List (String × OutcomeMap)
  deriving Repr

/-- Embeds the inner loop `for j in range(len(scrapers))` of `Scraper.scrape`
on one priority tier, at loop counter `j` with `n` iterations remaining.
Returns the updated trace and `some r` when the loop body returned from
`scrape` with `r` (first success wins), `none` when the tier was exhausted.
Each branch mirrors the source: a strategy exception is caught and the
strategy marked `"failed"`; on `result` truthy with the PDF check passing or
skipped the strategy is marked `"success"`, the callback (when set) is
awaited, and `True` is returned — a `KeyError` from `paper["title"]` or an
exception from the callback itself lands in the same `except Exception`,
falling through to the `"failed"` marking. -/
def scrapeTier (env : StratEnv) (cp : String → Bool) (cb : Option Cb)
    (paper : Paper) (path : String) (tier : List ScraperFunction) (i : Nat) :
    Nat → Nat → ScrapeTrace → ScrapeTrace × Option (Except PyErr Bool)
  | _, 0, st => (st, none)
  | j, n + 1, st =>
    let scraper := tier.getD ((i + j) % tier.length) default
    let st := { st with invoked := st.invoked ++ [scraper.name] }
    match env scraper paper path with
    | .error _ =>
      scrapeTier env cp cb paper path tier i (j + 1) n
        { st with m := omSet st.m scraper.name "failed" }
    | .ok result =>
      if result && (!scraper.check_pdf || cp path) then
        let m' := omSet st.m scraper.name "success"
        match cb with
        | none => ({ st with m := m' }, some (.ok true))
        | some f =>
          match paper.getTitle with
          | .error _ =>
            scrapeTier env cp cb paper path tier i (j + 1) n
              { st with m := omSet m' scraper.name "failed" }
          | .ok t =>
            match f t m' with
            | .ok _ =>
              ({ st with m := m', cbs := st.cbs ++ [(t, m')] }, some (.ok true))
            | .error _ =>
              scrapeTier env cp cb paper path tier i (j + 1) n
                { st with m := omSet m' scraper.name "failed",
                          cbs := st.cbs ++ [(t, m')] }
      else
        scrapeTier env cp cb paper path tier i (j + 1) n
          { st with m := omSet st.m scraper.name "failed" }

/-- Embeds the outer loop `for scrapers in self.sorted_scrapers[::-1]` of
`Scraper.scrape` (applied to the already-reversed tier list). After a tier is
exhausted without success the callback is awaited *outside* any
`try`/`except`, so a `KeyError` from `paper["title"]` or an exception raised
by the callback propagates out of `scrape`. -/
def scrapeTiers (env : StratEnv) (cp : String → Bool) (cb : Option Cb)
    (paper : Paper) (path : String) (i : Nat) :
    List (List ScraperFunction) → ScrapeTrace → ScrapeTrace × Except PyErr Bool
  | [], st => (st, .ok false)
  | tier :: rest, st =>
    match scrapeTier env cp cb paper path tier i 0 tier.length st with
    | (st', some r) => (st', r)
    | (st', none) =>
      match cb with
      | none => scrapeTiers env cp cb paper path i rest st'
      | some f =>
        match paper.getTitle with
        | .error e => (st', .error e)
        | .ok t =>
          match f t st'.m with
          | .error e => ({ st' with cbs := st'.cbs ++ [(t, st'.m)] }, .error e)
          | .ok _ =>
            scrapeTiers env cp cb paper path i rest
              { st' with cbs := st'.cbs ++ [(t, st'.m)] }

/-- Result of one `scrape` call: `result` is `.ok b` when `scrape` returned
the boolean `b` and `.error e` when it raised; the other fields are the final
observables of the trace. -/
structure ScrapeObs where
  result : Except PyErr Bool
  outcome : OutcomeMap
  invoked : List String
  cbs : List (String × OutcomeMap)
  deriving Repr

/-- Embeds `Scraper.scrape`: initialise `scrape_result` to `"none"` for every
registered name, then walk `self.sorted_scrapers[::-1]` (highest priority
first). The `logger` parameter of the source only emits diagnostics and is
modelled as absent. -/
def scrape (sc : Scraper) (cb : Option Cb) (env : StratEnv)
    (cp : String → Bool) (paper : Paper) (path : String) (i : Nat) :
    ScrapeObs :=
  let st0 : ScrapeTrace := ⟨omInit sc.scrapers, [], []⟩
  match scrapeTiers env cp cb paper path i sc.sorted_scrapers.reverse st0 with
  | (st, r) => ⟨r, st.m, st.invoked, st.cbs⟩

/-- Embeds `ThrottledClientSession.SERVICE_LIMIT_REACHED_STATUS_CODES`. -/
def SERVICE_LIMIT_REACHED_STATUS_CODES : List Nat := [429, 503, 504]

/-- Observables of one `ThrottledClientSession._request` call: token
acquisitions performed (`_wait_can_make_request`), statuses of the underlying
requests issued in order, and backoff sleeps performed. -/
structure RequestTrace where
  acquisitions : Nat
  requests : List Nat
  sleeps : List ℚ
  deriving DecidableEq, Repr

/-- Embeds the loop `for retry_num in range(self._retry_count + 1)` of
`ThrottledClientSession._request`, with `n` iterations remaining.
`responses k` is the status of the `k`-th underlying request issued by this
call, `jitter k` models `random.random()` at retry number `k`. Exhausting the
loop without `break` runs the `for`/`else` clause, raising `RuntimeError`; a
service-limit status without a configured rate limit raises
`NotImplementedError`. -/
def requestLoop (hasRateLimit : Bool) (responses : Nat → Nat)
    (jitter : Nat → ℚ) :
    Nat → Nat → RequestTrace → RequestTrace × Except PyErr Nat
  | _, 0, tr => (tr, .error .runtimeError)
  | retry_num, n + 1, tr =>
    let tr := { tr with acquisitions := tr.acquisitions + 1 }
    let status := responses tr.requests.length
    let tr := { tr with requests := tr.requests ++ [status] }
    if status ∈ SERVICE_LIMIT_REACHED_STATUS_CODES then
      if hasRateLimit then
        let exp_backoff_with_jitter :=
          (1 / 10 : ℚ) * (2 ^ retry_num + jitter retry_num)
        requestLoop hasRateLimit responses jitter (retry_num + 1) n
          { tr with sleeps := tr.sleeps ++ [exp_backoff_with_jitter] }
      else (tr, .error .notImplementedError)
    else (tr, .ok status)

/-- Embeds `ThrottledClientSession._request`: `hasRateLimit` is
`self._rate_limit is not None`; the result is the status of the returned
response, or the raised error. -/
def throttled_request (hasRateLimit : Bool) (retry_count : Nat)
    (responses : Nat → Nat) (jitter : Nat → ℚ) :
    RequestTrace × Except PyErr Nat :=
  requestLoop hasRateLimit responses jitter 0 (retry_count + 1) ⟨0, [], []⟩

/-- Embeds one iteration of the token arithmetic in
`ThrottledClientSession._filler`: `int(elapsed * rate)` tokens wanted,
clamped to the available queue space `maxsize - qsize`; returns the number of
`queue.put_nowait` calls performed. -/
def fillerAdd (rate : ℚ) (maxsize qsize : Nat) (elapsed : ℚ) : Nat :=
  min (Int.toNat ⌊elapsed * rate⌋) (maxsize - qsize)

/-- Queue size after one filler iteration with the given elapsed time. -/
def fillerStep (rate : ℚ) (maxsize : Nat) (qsize : Nat) (elapsed : ℚ) : Nat :=
  qsize + fillerAdd rate maxsize qsize elapsed

/-- Runs the filler over a list of per-iteration elapsed wall-clock times,
returning the final queue size and the total number of tokens added. -/
def fillerRun (rate : ℚ) (maxsize : Nat) :
    Nat → List ℚ → Nat × Nat
  | qsize, [] => (qsize, 0)
  | qsize, t :: ts =>
    let added := fillerAdd rate maxsize qsize t
    let rest := fillerRun rate maxsize (qsize + added) ts
    (rest.1, added + rest.2)

/-- Embeds the inner helper `scrape_parse` of `Scraper.batch_scrape` for one
paper at global index `i`. Only `RuntimeError` is caught around the
preprocessor and around the parser; a `KeyError` from `paper["paperId"]`, an
exception raised out of `self.scrape`, and any non-`RuntimeError` failure of
the preprocessor or parser all propagate. The second component lists the
destination paths for which `scrape` reported success (the strategy wrote the
file there; nothing in `batch_scrape` ever deletes it). -/
def scrape_parse {μ : Type} (sc : Scraper) (cb : Option Cb) (env : StratEnv)
    (cp : String → Bool) (dir : String) (preproc : Paper → Except PyErr Paper)
    (parser : Paper → Except PyErr μ) (paper : Paper) (i : Nat) :
    Except PyErr (Option (String × μ)) × List String :=
  match preproc paper with
  | .error .runtimeError => (.ok none, [])
  | .error e => (.error e, [])
  | .ok paper' =>
    match paper'.getPaperId with
    | .error e => (.error e, [])
    | .ok pid =>
      let path := dir ++ "/" ++ pid ++ ".pdf"
      let obs := scrape sc cb env cp paper' path i
      match obs.result with
      | .error e => (.error e, [])
      | .ok success =>
        if success then
          match parser paper' with
          | .ok meta => (.ok (some (path, meta)), [path])
          | .error .runtimeError => (.ok none, [path])
          | .error e => (.error e, [path])
        else (.ok none, [])

/-- Models `await asyncio.gather(...)` over the already-computed per-task
outcomes: if any task raised, the gather raises (the first raiser in list
order is the deterministic stand-in for the first raiser in time); otherwise
all results are returned in order. -/
def gatherResults {α : Type} : List (Except PyErr α) → Except PyErr (List α)
  | [] => .ok []
  | .error e :: _ => .error e
  | .ok a :: rest =>
    match gatherResults rest with
    | .error e => .error e
    | .ok as => .ok (a :: as)

/-- Embeds dict upsert for the `aggregated |= {...}` merge. -/
def dictUpsert {μ : Type} (m : List (String × μ)) (k : String) (v : μ) :
    List (String × μ) :=
  match m with
  | [] => [(k, v)]
  | (k0, v0) :: rest =>
    if k0 = k then (k0, v) :: rest else (k0, v0) :: dictUpsert rest k v

/-- Embeds `aggregated |= {r[0]: r[1] for r in results if r is not False}`. -/
def dictMerge {μ : Type} (m : List (String × μ)) (kvs : List (String × μ)) :
    List (String × μ) :=
  kvs.foldl (fun acc kv => dictUpsert acc kv.1 kv.2) m

/-- Batch observables accumulated across chunks: the aggregated result dict,
the `(paper, start offset)` pairs whose `scrape_parse` task was started (in
issue order), and the destination paths written by successful scrapes. -/
structure BatchState (μ : Type) where
  aggregated : List (String × μ)
  attempted : List (Paper × Nat)
  downloaded : List String

/-- Embeds the chunk loop `for i in range(0, len(papers), batch_size)` of
`Scraper.batch_scrape`, with `b1 + 1` playing the role of `batch_size` and
`idx` the global index of the first remaining paper. Each chunk is gathered
as a whole; after merging, the loop breaks once `len(aggregated) >= limit`.
The first argument is recursion fuel, a Lean artifact to realise the loop
structurally: the wrapper `batchLoop` passes the paper count, which always
suffices since each iteration consumes at least one paper. -/
def batchLoopAux {μ : Type} (sc : Scraper) (cb : Option Cb) (env : StratEnv)
    (cp : String → Bool) (dir : String) (preproc : Paper → Except PyErr Paper)
    (parser : Paper → Except PyErr μ) (b1 : Nat) (limit : Option Nat) :
    Nat → List Paper → Nat → BatchState μ → BatchState μ × Option PyErr
  | _, [], _, st => (st, none)
  | 0, _ :: _, _, st => (st, none)
  | fuel + 1, p :: rest, idx, st =>
    let chunk := p :: rest.take b1
    let rs := chunk.enum.map
      (fun jp => scrape_parse sc cb env cp dir preproc parser jp.2 (idx + jp.1))
    let st := { st with
      attempted := st.attempted ++ chunk.enum.map (fun jp => (jp.2, idx + jp.1)),
      downloaded := st.downloaded ++ (rs.map Prod.snd).flatten }
    match gatherResults (rs.map Prod.fst) with
    | .error e => (st, some e)
    | .ok opts =>
      let st := { st with
        aggregated := dictMerge st.aggregated (opts.filterMap id) }
      match limit with
      | some lim =>
        if lim ≤ st.aggregated.length then (st, none)
        else batchLoopAux sc cb env cp dir preproc parser b1 limit fuel
          (rest.drop b1) (idx + (b1 + 1)) st
      | none =>
        batchLoopAux sc cb env cp dir preproc parser b1 limit fuel
          (rest.drop b1) (idx + (b1 + 1)) st

/-- Embeds the chunk loop of `Scraper.batch_scrape` (see `batchLoopAux`). -/
def batchLoop {μ : Type} (sc : Scraper) (cb : Option Cb) (env : StratEnv)
    (cp : String → Bool) (dir : String) (preproc : Paper → Except PyErr Paper)
    (parser : Paper → Except PyErr μ) (b1 : Nat) (limit : Option Nat)
    (papers : List Paper) (idx : Nat) (st : BatchState μ) :
    BatchState μ × Option PyErr :=
  batchLoopAux sc cb env cp dir preproc parser b1 limit papers.length
    papers idx st

/-- Overall result of one `batch_scrape` call. -/
structure BatchObs (μ : Type) where
  result : Except PyErr (List (String × μ))
  attempted : List (Paper × Nat)
  downloaded : List String

/-- Embeds `Scraper.batch_scrape`. A `batch_size` of `0` makes
`range(0, len(papers), 0)` raise `ValueError` in Python, so it is modelled as
an immediate error. -/
def batch_scrape {μ : Type} (sc : Scraper) (cb : Option Cb) (env : StratEnv)
    (cp : String → Bool) (papers : List Paper) (dir : String)
    (preproc : Paper → Except PyErr Paper) (parser : Paper → Except PyErr μ)
    (batch_size : Nat) (limit : Option Nat) : BatchObs μ :=
  if batch_size = 0 then ⟨.error .valueError, [], []⟩
  else
    match batchLoop sc cb env cp dir preproc parser (batch_size - 1) limit
      papers 0 ⟨[], [], []⟩ with
    | (st, some e) => ⟨.error e, st.attempted, st.downloaded⟩
    | (st, none) => ⟨.ok st.aggregated, st.attempted, st.downloaded⟩

/-- Registry states reachable from a fresh `Scraper` by any sequence of
`register_scraper` and `deregister_scraper` calls. -/
inductive Reachable : Scraper → Prop where
  | init : Reachable Scraper.init
  | register {sc} (func attach_session priority name check) :
      Reachable sc →
      Reachable (register_scraper sc func attach_session priority name check)
  | deregister {sc} (name) :
      Reachable sc → Reachable (deregister_scraper sc name)

/-- Pairs each paper with its global index in the input sequence, starting
at `n`. -/
def paperIdx : List Paper → Nat → List (Paper × Nat)
  | [], _ => []
  | p :: ps, n => (p, n) :: paperIdx ps (n + 1)

/-- Modelled from the spec (§4.4 Batch Coordinator), fuel-based recursion:
process the enumerated papers in consecutive chunks of size `b`; each paper
is issued with the start offset it is paired with (its global index); after
a chunk is aggregated, stop issuing new chunks as soon as the aggregated
success count has reached the limit. The fuel only bounds the recursion and
is irrelevant once it is at least the number of papers. -/
def specBatchAux {μ : Type} (f : Paper → Nat → Option (String × μ)) (b : Nat)
    (limit : Option Nat) :
    Nat → List (Paper × Nat) → List (String × μ) →
      List (String × μ) × List (Paper × Nat)
  | _, [], agg => (agg, [])
  | 0, _ :: _, agg => (agg, [])
  | fuel + 1, pg :: rem, agg =>
    let chunk := pg :: rem.take (b - 1)
    let agg' := dictMerge agg (chunk.filterMap (fun q => f q.1 q.2))
    let stop : Bool := match limit with
      | some lim => decide (lim ≤ agg'.length)
      | none => false
    if stop then (agg', chunk)
    else
      let rest := specBatchAux f b limit fuel (rem.drop (b - 1)) agg'
      (rest.1, chunk ++ rest.2)

/-- Modelled from the spec (§4.4 Batch Coordinator): the chunked reference
behaviour of the Batch Coordinator, returning the aggregated map and the
`(paper, offset)` pairs issued. This is the spec-side reference the code is
compared against. -/
def specBatch {μ : Type} (f : Paper → Nat → Option (String × μ)) (b : Nat)
    (limit : Option Nat) (pairs : List (Paper × Nat))
    (agg : List (String × μ)) :
    List (String × μ) × List (Paper × Nat) :=
  specBatchAux f b limit pairs.length pairs agg

/-- Predicate on a filler trace: at no iteration does the queue-space clamp
bind (there is always room for every token the elapsed time entitles). -/
def fillerNoClamp (rate : ℚ) (maxsize : Nat) : Nat → List ℚ → Prop
  | _, [] => True
  | qsize, t :: ts =>
    Int.toNat ⌊t * rate⌋ ≤ maxsize - qsize ∧
      fillerNoClamp rate maxsize (fillerStep rate maxsize qsize t) ts

/-! Concrete instances used by witnesses and counterexamples. -/

/-- Strategy callable identities used in concrete registries. -/
def fX1 : PyFunc := ⟨101, "x1_scraper"⟩

/-- Second strategy callable identity. -/
def fX2 : PyFunc := ⟨102, "x2_scraper"⟩

/-- Third strategy callable identity. -/
def fX3 : PyFunc := ⟨103, "x3_scraper"⟩

/-- Registry with two records registered under the same name `"x"` (the
second registration must, per the claim, replace the first). -/
def scC3 : Scraper :=
  register_scraper (register_scraper Scraper.init fX1 false 10 (some "x") true)
    fX2 false 10 (some "x") true

/-- Registry with two records named `"x"`: first registered at priority 1,
then at priority 5 (so the priority-sorted list holds the later registration
first). -/
def scC10 : Scraper :=
  register_scraper (register_scraper Scraper.init fX1 false 1 (some "x") true)
    fX2 false 5 (some "x") true

/-- Registry with three strategies at priorities 5, 10, 1 (registered in
that order), as in the spec's tier-ordering example. -/
def scW4 : Scraper :=
  register_scraper
    (register_scraper
      (register_scraper Scraper.init fX1 false 5 (some "A") true)
      fX2 false 10 (some "B") true)
    fX3 false 1 (some "C") true

/-- Registry with one strategy named `"strategy"` with the PDF check on. -/
def scOne : Scraper :=
  register_scraper Scraper.init fX1 false 10 (some "strategy") true

/-- Paper with both keys present. -/
def paperT : Paper := ⟨some "T", some "ID"⟩

/-- Strategy environment in which every invocation returns `True`. -/
def envTrue : StratEnv := fun _ _ _ => .ok true

/-- Strategy environment in which every invocation returns `False`. -/
def envFalse : StratEnv := fun _ _ _ => .ok false

/-- Observer callback that raises on every call. -/
def cbRaise : Cb := fun _ _ => .error .otherError

/-- Two-strategy tier of equal priority (names `"A"`, `"B"`, PDF check off)
used in rotation and first-success witnesses. -/
def tierW : List ScraperFunction :=
  [⟨fX1, 10, false, "A", false⟩, ⟨fX2, 10, false, "B", false⟩]

/-- Empty starting trace over `tierW`. -/
def stW : ScrapeTrace := ⟨omInit tierW, [], []⟩

/-- Response-status environment: two 429s, then 200s. -/
def respW : Nat → Nat := fun k => if k < 2 then 429 else 200

/-- Constant jitter of one half. -/
def jitW : Nat → ℚ := fun _ => 1 / 2

/-- Paper number `k` of the 25-paper batch witness. -/
def mkPaperW (k : Nat) : Paper :=
  ⟨some ("T" ++ toString k), some ("ID" ++ toString k)⟩

/-- The 25-paper input of the batch witness. -/
def papersW : List Paper := (List.range 25).map mkPaperW

/-- Per-paper outcome of the batch witness: every paper with a `paperId`
succeeds at its derived destination path. -/
def fW : Paper → Nat → Option (String × Unit) :=
  fun p _ =>
    match p.paperId with
    | some pid => some ("d" ++ "/" ++ pid ++ ".pdf", ())
    | none => none

/-! Helper lemmas on the priority-bucket construction. -/

theorem mem_insertPriorityAsc {x y : Int} {ys : List Int} :
    x ∈ insertPriorityAsc y ys ↔ x = y ∨ x ∈ ys := by
  induction ys with
  | nil => simp [insertPriorityAsc]
  | cons z zs ih =>
    simp only [insertPriorityAsc]
    split
    · simp [List.mem_cons]
    · split
      · rename_i h1 h2
        subst h2
        simp only [List.mem_cons]; tauto
      · simp only [List.mem_cons, ih]; tauto

theorem sorted_insertPriorityAsc {y : Int} {ys : List Int}
    (h : List.Sorted (· < ·) ys) :
    List.Sorted (· < ·) (insertPriorityAsc y ys) := by
  induction ys with
  | nil => simp [insertPriorityAsc]
  | cons z zs ih =>
    rw [List.sorted_cons] at h
    simp only [insertPriorityAsc]
    split
    · rename_i hlt
      rw [List.sorted_cons]
      refine ⟨?_, by rw [List.sorted_cons]; exact h⟩
      intro b hb
      rcases List.mem_cons.mp hb with rfl | hb
      · exact hlt
      · exact lt_trans hlt (h.1 b hb)
    · split
      · rename_i h1 h2
        subst h2
        rw [List.sorted_cons]; exact h
      · rename_i h1 h2
        rw [List.sorted_cons]
        refine ⟨?_, ih h.2⟩
        intro b hb
        rcases mem_insertPriorityAsc.mp hb with rfl | hb
        · omega
        · exact h.1 b hb

theorem sortedPriorities_sorted (l : List ScraperFunction) :
    List.Sorted (· < ·) (sortedPriorities l) := by
  induction l with
  | nil => simp [sortedPriorities]
  | cons s ss ih => exact sorted_insertPriorityAsc ih

theorem mem_sortedPriorities {p : Int} {l : List ScraperFunction} :
    p ∈ sortedPriorities l ↔ ∃ s ∈ l, s.priority = p := by
  induction l with
  | nil => simp [sortedPriorities]
  | cons s ss ih =>
    show p ∈ insertPriorityAsc s.priority (sortedPriorities ss) ↔ _
    rw [mem_insertPriorityAsc, ih]
    constructor
    · rintro (rfl | ⟨t, ht, rfl⟩)
      · exact ⟨s, List.mem_cons_self s ss, rfl⟩
      · exact ⟨t, List.mem_cons_of_mem s ht, rfl⟩
    · rintro ⟨t, ht, rfl⟩
      rcases List.mem_cons.mp ht with rfl | ht
      · exact Or.inl rfl
      · exact Or.inr ⟨t, ht, rfl⟩

theorem sortedPriorities_nodup (l : List ScraperFunction) :
    (sortedPriorities l).Nodup :=
  (sortedPriorities_sorted l).nodup

theorem count_filter_priority (l : List ScraperFunction) (p : Int)
    (a : ScraperFunction) :
    (l.filter (fun s => s.priority == p)).count a =
      if a.priority = p then l.count a else 0 := by
  induction l with
  | nil => simp
  | cons s ss ih =>
    by_cases hs : s.priority = p
    · rw [List.filter_cons_of_pos (by simp [hs]), List.count_cons,
        List.count_cons, ih]
      by_cases hap : a.priority = p
      · simp [hap]
      · have : (s == a) = false := by
          simp only [beq_eq_false_iff_ne]
          intro hsa
          exact hap (hsa ▸ hs)
        simp [hap, this]
    · rw [List.filter_cons_of_neg (by simp [hs]), List.count_cons, ih]
      by_cases hap : a.priority = p
      · have : (s == a) = false := by
          simp only [beq_eq_false_iff_ne]
          intro hsa
          exact hs (by rw [hsa, hap])
        simp [hap, this]
      · simp [hap]

theorem sum_map_ite_count (ps : List Int) (x : Int) (c : Nat) :
    (ps.map (fun p => if x = p then c else 0)).sum = c * ps.count x := by
  induction ps with
  | nil => simp
  | cons p ps ih =>
    rw [List.map_cons, List.sum_cons, ih, List.count_cons]
    by_cases h : x = p
    · simp [h, Nat.mul_add, Nat.add_comm]
    · have : (p == x) = false := by
        simp only [beq_eq_false_iff_ne]
        exact fun hh => h hh.symm
      simp [h, this]

theorem count_flatten_buckets (l : List ScraperFunction)
    (a : ScraperFunction) :
    (build_sorted_scrapers l).flatten.count a = l.count a := by
  rw [build_sorted_scrapers, List.count_flatten, List.map_map]
  have hfun : (List.count a ∘ fun p => l.filter fun s => s.priority == p) =
      fun p => if a.priority = p then l.count a else 0 := by
    funext p
    exact count_filter_priority l p a
  rw [hfun, sum_map_ite_count]
  by_cases ha : a ∈ l
  · have hmem : a.priority ∈ sortedPriorities l :=
      mem_sortedPriorities.mpr ⟨a, ha, rfl⟩
    rw [List.count_eq_one_of_mem (sortedPriorities_nodup l) hmem, Nat.mul_one]
  · rw [List.count_eq_zero_of_not_mem ha, Nat.zero_mul]

theorem buckets_perm (l : List ScraperFunction) :
    (build_sorted_scrapers l).flatten.Perm l := by
  rw [List.perm_iff_count]
  intro a
  exact count_flatten_buckets l a

theorem buckets_length_sum (l : List ScraperFunction) :
    ((build_sorted_scrapers l).map List.length).sum = l.length := by
  have h := (buckets_perm l).length_eq
  rwa [List.length_flatten] at h

theorem buckets_pairwise_lt (l : List ScraperFunction) :
    List.Pairwise (fun b1 b2 => ∀ s1 ∈ b1, ∀ s2 ∈ b2,
      s1.priority < s2.priority) (build_sorted_scrapers l) := by
  rw [build_sorted_scrapers, List.pairwise_map]
  refine (sortedPriorities_sorted l).imp ?_
  intro p q hpq s1 hs1 s2 hs2
  have h1 := (List.mem_filter.mp hs1).2
  have h2 := (List.mem_filter.mp hs2).2
  rw [beq_iff_eq] at h1 h2
  rw [h1, h2]
  exact hpq

theorem buckets_nonempty (l : List ScraperFunction) :
    ∀ b ∈ build_sorted_scrapers l, b ≠ [] := by
  intro b hb
  rw [build_sorted_scrapers, List.mem_map] at hb
  obtain ⟨p, hp, rfl⟩ := hb
  obtain ⟨s, hs, hsp⟩ := mem_sortedPriorities.mp hp
  have : s ∈ l.filter (fun s => s.priority == p) :=
    List.mem_filter.mpr ⟨hs, by simp [hsp]⟩
  exact List.ne_nil_of_mem this

theorem reachable_sorted_eq_build {sc : Scraper} (h : Reachable sc) :
    sc.sorted_scrapers = build_sorted_scrapers sc.scrapers := by
  induction h with
  | init => rfl
  | register => rfl
  | deregister => rfl

/-- C4: for every registry state reachable by register/deregister calls, the
priority buckets partition the registry exactly — the bucket list is the one
rebuilt from the registry, the sum of bucket sizes equals the registry size,
the flattened buckets are a permutation of the registry (each strategy in
exactly one bucket), bucket keys are strictly ascending, no bucket is empty,
and the reversed bucket list that `scrape` iterates
(`self.sorted_scrapers[::-1]`) runs from highest priority to lowest. -/
theorem C4_buckets_partition_ordered (sc : Scraper) (h : Reachable sc) :
    sc.sorted_scrapers = build_sorted_scrapers sc.scrapers
    ∧ (sc.sorted_scrapers.map List.length).sum = sc.scrapers.length
    ∧ sc.sorted_scrapers.flatten.Perm sc.scrapers
    ∧ List.Sorted (· < ·) (sortedPriorities sc.scrapers)
    ∧ (∀ b ∈ sc.sorted_scrapers, b ≠ [])
    ∧ List.Pairwise (fun b1 b2 => ∀ s1 ∈ b1, ∀ s2 ∈ b2,
        s1.priority < s2.priority) sc.sorted_scrapers
    ∧ List.Pairwise (fun b1 b2 => ∀ s1 ∈ b1, ∀ s2 ∈ b2,
        s2.priority < s1.priority) sc.sorted_scrapers.reverse := by
  have hb := reachable_sorted_eq_build h
  rw [hb]
  refine ⟨rfl, buckets_length_sum _, buckets_perm _, sortedPriorities_sorted _,
    buckets_nonempty _, buckets_pairwise_lt _, ?_⟩
  rw [List.pairwise_reverse]
  refine (buckets_pairwise_lt sc.scrapers).imp ?_
  intro b1 b2 hp s2 hs2 s1 hs1
  exact hp s1 hs1 s2 hs2

/-- Witness for C4 at the registry with priorities registered as 5, 10, 1:
the partition sum holds and the tiers execute in order 10, 5, 1. -/
theorem C4_buckets_partition_ordered_witness :
    Reachable scW4
    ∧ (scW4.sorted_scrapers.map List.length).sum = scW4.scrapers.length
    ∧ scW4.sorted_scrapers.reverse.map (fun b => b.map (fun s => s.priority))
        = [[10], [5], [1]] := by
  have hr : Reachable scW4 :=
    Reachable.register _ _ _ _ _
      (Reachable.register _ _ _ _ _
        (Reachable.register _ _ _ _ _ Reachable.init))
  exact ⟨hr, (C4_buckets_partition_ordered scW4 hr).2.1, by decide⟩

/-- C3 (code bug): evaluating `register_scraper` twice with the same name
`"x"` appends a second record instead of replacing the first — the registry
grows to two records sharing one name, contradicting the claimed
replace-on-re-registration invariant. -/
theorem C3_register_same_name_duplicates :
    scC3.scrapers.map (fun s => s.name) = ["x", "x"]
    ∧ scC3.scrapers.length = 2
    ∧ (register_scraper Scraper.init fX1 false 10 (some "x") true).scrapers.length = 1 := by
  decide

/-- Counterexample to C10 as stated: in `scC10` the record named `"x"` that
was registered first has priority 1, but `deregister_scraper` removes the
priority-5 record (first in the priority-sorted list), not the first in
registration order — the claim would leave the priority-5 record. -/
theorem C10_counterexample :
    scC10.scrapers.map (fun s => (s.name, s.priority)) = [("x", 5), ("x", 1)]
    ∧ (deregister_scraper scC10 "x").scrapers.map
        (fun s => (s.name, s.priority)) = [("x", 1)]
    ∧ ¬ (deregister_scraper scC10 "x").scrapers.map
        (fun s => (s.name, s.priority)) = [("x", 5)] := by
  decide

/-- C10 (amended): deregistering removes at most one record — the first
matching record of the priority-sorted registry list — then rebuilds the
buckets; an absent name leaves the registry unchanged and raises nothing. -/
theorem C10_deregister_first_match (sc : Scraper) (name : String) :
    (deregister_scraper sc name).scrapers
        = sc.scrapers.eraseP (fun s => s.name == name)
    ∧ (deregister_scraper sc name).sorted_scrapers
        = build_sorted_scrapers ((deregister_scraper sc name).scrapers)
    ∧ ((∀ s ∈ sc.scrapers, s.name ≠ name) →
        (deregister_scraper sc name).scrapers = sc.scrapers)
    ∧ sc.scrapers.length - 1 ≤ (deregister_scraper sc name).scrapers.length
    ∧ (deregister_scraper sc name).scrapers.length ≤ sc.scrapers.length := by
  have herase : ∀ l : List ScraperFunction,
      removeFirstByName name l = l.eraseP (fun s => s.name == name) := by
    intro l
    induction l with
    | nil => rfl
    | cons s rest ih =>
      rw [removeFirstByName, List.eraseP_cons]
      by_cases h : s.name = name
      · simp [h]
      · simp [h, ih, cond_eq_if]
  have hlen : ∀ l : List ScraperFunction,
      l.length - 1 ≤ (removeFirstByName name l).length
      ∧ (removeFirstByName name l).length ≤ l.length := by
    intro l
    induction l with
    | nil => exact ⟨Nat.le_refl _, Nat.le_refl _⟩
    | cons s rest ih =>
      rw [removeFirstByName]
      by_cases h : s.name = name
      · simp only [h, beq_self_eq_true, if_pos]
        constructor
        · simp
        · simp [Nat.le_succ]
      · simp only [beq_iff_eq, if_neg h, List.length_cons]
        omega
  have hid : ∀ l : List ScraperFunction, (∀ s ∈ l, s.name ≠ name) →
      removeFirstByName name l = l := by
    intro l
    induction l with
    | nil => intro _; rfl
    | cons s rest ih =>
      intro hno
      rw [removeFirstByName, if_neg (by
        simp only [beq_iff_eq]
        exact hno s (List.mem_cons_self s rest))]
      rw [ih (fun t ht => hno t (List.mem_cons_of_mem s ht))]
  exact ⟨herase sc.scrapers, rfl, hid sc.scrapers,
    (hlen sc.scrapers).1, (hlen sc.scrapers).2⟩

/-- Witness for C10's amended theorem: deregistering the absent name `"y"`
from `scC10` leaves the registry unchanged, and the removal is `eraseP` of
the first matching record. -/
theorem C10_deregister_first_match_witness :
    (∀ s ∈ scC10.scrapers, s.name ≠ "y")
    ∧ (deregister_scraper scC10 "y").scrapers = scC10.scrapers
    ∧ (deregister_scraper scC10 "x").scrapers
        = scC10.scrapers.eraseP (fun s => s.name == "x") := by
  refine ⟨by decide, ?_, (C10_deregister_first_match scC10 "x").1⟩
  exact (C10_deregister_first_match scC10 "y").2.2.1 (by decide)

/-- C1: when a strategy invocation returns `True`: with the PDF-check flag
set and the check failing on the destination path, the strategy is marked
`"failed"` and the loop continues with the next strategy; with the check
passing or the flag unset, the strategy is marked `"success"`, the observer
callback (when configured) is awaited with the outcome map, and `scrape`
returns `True` at once — the surrounding tier loop propagates the return
unchanged, so no further strategy is invoked. -/
theorem C1_first_success_wins (env : StratEnv) (cp : String → Bool)
    (cb : Option Cb) (paper : Paper) (path : String)
    (tier : List ScraperFunction) (i j n : Nat) (st : ScrapeTrace)
    (scraper : ScraperFunction)
    (hsc : scraper = tier.getD ((i + j) % tier.length) default)
    (hret : env scraper paper path = .ok true) :
    (scraper.check_pdf = true → cp path = false →
      scrapeTier env cp cb paper path tier i j (n + 1) st =
        scrapeTier env cp cb paper path tier i (j + 1) n
          { st with invoked := st.invoked ++ [scraper.name],
                    m := omSet st.m scraper.name "failed" })
    ∧ ((scraper.check_pdf = false ∨ cp path = true) → cb = none →
      scrapeTier env cp cb paper path tier i j (n + 1) st =
        ({ st with invoked := st.invoked ++ [scraper.name],
                   m := omSet st.m scraper.name "success" }, some (.ok true)))
    ∧ (∀ f t, (scraper.check_pdf = false ∨ cp path = true) → cb = some f →
      paper.title = some t →
      f t (omSet st.m scraper.name "success") = .ok () →
      scrapeTier env cp cb paper path tier i j (n + 1) st =
        ({ st with invoked := st.invoked ++ [scraper.name],
                   m := omSet st.m scraper.name "success",
                   cbs := st.cbs ++ [(t, omSet st.m scraper.name "success")] },
          some (.ok true)))
    ∧ (∀ st' r rest,
      scrapeTier env cp cb paper path tier i 0 tier.length st = (st', some r) →
      scrapeTiers env cp cb paper path i (tier :: rest) st = (st', r)) := by
  refine ⟨?_, ?_, ?_, ?_⟩
  · intro hc hcp
    rw [scrapeTier, ← hsc, hret]
    simp [hc, hcp]
  · intro hor hcb
    subst hcb
    rw [scrapeTier, ← hsc, hret]
    rcases hor with hc | hcp
    · simp [hc]
    · simp [hcp]
  · intro f t hor hcb ht hf
    subst hcb
    rw [scrapeTier, ← hsc, hret]
    rcases hor with hc | hcp
    · simp [hc, Paper.getTitle, ht, hf]
    · simp [hcp, Paper.getTitle, ht, hf]
  · intro st' r rest hta
    rw [scrapeTiers, hta]

theorem scrapeTier_some_ok (env : StratEnv) (cp : String → Bool)
    (cb : Option Cb) (paper : Paper) (path : String)
    (tier : List ScraperFunction) (i : Nat) :
    ∀ n j st st' r,
      scrapeTier env cp cb paper path tier i j n st = (st', some r) →
      r = .ok true := by
  intro n
  induction n with
  | zero =>
    intro j st st' r h
    rw [scrapeTier] at h
    simp at h
  | succ n ih =>
    intro j st st' r h
    rw [scrapeTier] at h
    rcases henv : env (tier.getD ((i + j) % tier.length) default) paper path with e | result
    · rw [henv] at h
      exact ih _ _ _ _ h
    · rw [henv] at h
      dsimp only at h
      by_cases hcond : result && (!(tier.getD ((i + j) % tier.length) default).check_pdf || cp path)
      · rw [if_pos hcond] at h
        rcases cb with _ | f
        · dsimp only at h
          simp at h
          exact h.2.symm
        · dsimp only at h
          rcases ht : paper.getTitle with e | t
          · rw [ht] at h
            dsimp only at h
            exact ih _ _ _ _ h
          · rw [ht] at h
            dsimp only at h
            rcases hf : f t (omSet st.m (tier.getD ((i + j) % tier.length) default).name "success") with e | u
            · rw [hf] at h
              dsimp only at h
              exact ih _ _ _ _ h
            · rw [hf] at h
              dsimp only at h
              simp at h
              exact h.2.symm
      · rw [if_neg hcond] at h
        exact ih _ _ _ _ h

theorem scrapeTiers_ok (env : StratEnv) (cp : String → Bool)
    (paper : Paper) (path : String) (i : Nat) (cb : Option Cb)
    (hcb : cb = none ∨ ∃ f t, cb = some f ∧ paper.title = some t
      ∧ ∀ u m, f u m = .ok ()) :
    ∀ tiers st, ∃ st' b,
      scrapeTiers env cp cb paper path i tiers st = (st', .ok b) := by
  intro tiers
  induction tiers with
  | nil =>
    intro st
    exact ⟨st, false, rfl⟩
  | cons tier rest ih =>
    intro st
    rcases hmat : scrapeTier env cp cb paper path tier i 0 tier.length st
      with ⟨st1, o⟩
    rcases o with _ | r
    · rcases hcb with rfl | ⟨f, t, rfl, ht, hf⟩
      · obtain ⟨st2, b, h2⟩ := ih st1
        refine ⟨st2, b, ?_⟩
        rw [scrapeTiers, hmat]
        exact h2
      · obtain ⟨st2, b, h2⟩ := ih { st1 with cbs := st1.cbs ++ [(t, st1.m)] }
        refine ⟨st2, b, ?_⟩
        rw [scrapeTiers, hmat]
        dsimp only
        rw [show paper.getTitle = .ok t from by rw [Paper.getTitle, ht]]
        dsimp only
        rw [hf]
        exact h2
    · have hr := scrapeTier_some_ok env cp cb paper path tier i _ _ _ _ _ hmat
      subst hr
      refine ⟨st1, true, ?_⟩
      rw [scrapeTiers, hmat]

/-- C2 (amended): every exception thrown by a strategy invocation is caught,
the strategy is marked `"failed"`, and the loop proceeds; `scrape` itself
returns a boolean (never raises) provided the tier-end observer callback
path cannot raise — no callback configured, or a callback that always
returns with the paper title present. -/
theorem C2_no_raise
    (sc : Scraper) (cb : Option Cb) (env : StratEnv) (cp : String → Bool)
    (paper : Paper) (path : String) (i : Nat)
    (hcb : cb = none ∨ ∃ f t, cb = some f ∧ paper.title = some t
      ∧ ∀ u m, f u m = .ok ()) :
    (∃ b, (scrape sc cb env cp paper path i).result = .ok b)
    ∧ (∀ tier j n st e,
      env (tier.getD ((i + j) % tier.length) default) paper path = .error e →
      scrapeTier env cp cb paper path tier i j (n + 1) st =
        scrapeTier env cp cb paper path tier i (j + 1) n
          { st with
              invoked := st.invoked ++
                [(tier.getD ((i + j) % tier.length) default).name],
              m := omSet st.m
                (tier.getD ((i + j) % tier.length) default).name "failed" }) := by
  constructor
  · obtain ⟨st', b, h⟩ := scrapeTiers_ok env cp paper path i cb hcb
      sc.sorted_scrapers.reverse ⟨omInit sc.scrapers, [], []⟩
    refine ⟨b, ?_⟩
    rw [scrape, h]
  · intro tier j n st e henv
    rw [scrapeTier, henv]

/-- Counterexample to C2 as stated: with an observer callback that raises,
the tier-end callback invocation sits outside the `try`/`except`, so the
exception propagates out of `scrape`. -/
theorem C2_counterexample :
    (scrape scOne (some cbRaise) envFalse (fun _ => true) paperT "p.pdf" 0).result
      = .error .otherError := by
  rfl

/-- Witness for C2's amended theorem: with no callback configured, `scrape`
returns a boolean. -/
theorem C2_no_raise_witness :
    ∃ b, (scrape scOne none envFalse (fun _ => true) paperT "p.pdf" 0).result
      = .ok b := by
  exact (C2_no_raise scOne none envFalse (fun _ => true) paperT "p.pdf" 0
    (Or.inl rfl)).1

theorem scrapeTier_invoked_append (env : StratEnv) (cp : String → Bool)
    (cb : Option Cb) (paper : Paper) (path : String)
    (tier : List ScraperFunction) (i : Nat) :
    ∀ n j st, ∃ tail,
      (scrapeTier env cp cb paper path tier i j n st).1.invoked
        = st.invoked ++ tail := by
  intro n
  induction n with
  | zero =>
    intro j st
    exact ⟨[], by rw [scrapeTier]; simp⟩
  | succ n ih =>
    intro j st
    rw [scrapeTier]
    rcases henv : env (tier.getD ((i + j) % tier.length) default) paper path
      with e | result
    · dsimp only
      obtain ⟨tail, htail⟩ := ih (j + 1)
        { st with
            invoked := st.invoked ++
              [(tier.getD ((i + j) % tier.length) default).name],
            m := omSet st.m
              (tier.getD ((i + j) % tier.length) default).name "failed" }
      exact ⟨[(tier.getD ((i + j) % tier.length) default).name] ++ tail,
        by rw [htail]; simp⟩
    · dsimp only
      by_cases hcond : result &&
          (!(tier.getD ((i + j) % tier.length) default).check_pdf || cp path)
      · rw [if_pos hcond]
        rcases cb with _ | f
        · exact ⟨[(tier.getD ((i + j) % tier.length) default).name], rfl⟩
        · dsimp only
          rcases ht : paper.getTitle with e | t
          · dsimp only
            obtain ⟨tail, htail⟩ := ih (j + 1)
              { st with
                  invoked := st.invoked ++
                    [(tier.getD ((i + j) % tier.length) default).name],
                  m := omSet (omSet st.m
                    (tier.getD ((i + j) % tier.length) default).name "success")
                    (tier.getD ((i + j) % tier.length) default).name "failed" }
            exact ⟨[(tier.getD ((i + j) % tier.length) default).name] ++ tail,
              by rw [htail]; simp⟩
          · dsimp only
            rcases hf : f t (omSet st.m
                (tier.getD ((i + j) % tier.length) default).name "success")
              with e | u
            · dsimp only
              obtain ⟨tail, htail⟩ := ih (j + 1)
                { st with
                    invoked := st.invoked ++
                      [(tier.getD ((i + j) % tier.length) default).name],
                    m := omSet (omSet st.m
                      (tier.getD ((i + j) % tier.length) default).name
                      "success")
                      (tier.getD ((i + j) % tier.length) default).name "failed",
                    cbs := st.cbs ++ [(t, omSet st.m
                      (tier.getD ((i + j) % tier.length) default).name
                      "success")] }
              exact ⟨[(tier.getD ((i + j) % tier.length) default).name] ++ tail,
                by rw [htail]; simp⟩
            · exact ⟨[(tier.getD ((i + j) % tier.length) default).name], rfl⟩
      · rw [if_neg hcond]
        obtain ⟨tail, htail⟩ := ih (j + 1)
          { st with
              invoked := st.invoked ++
                [(tier.getD ((i + j) % tier.length) default).name],
              m := omSet st.m
                (tier.getD ((i + j) % tier.length) default).name "failed" }
        exact ⟨[(tier.getD ((i + j) % tier.length) default).name] ++ tail,
          by rw [htail]; simp⟩

theorem scrapeTier_first_invoked (env : StratEnv) (cp : String → Bool)
    (cb : Option Cb) (paper : Paper) (path : String)
    (tier : List ScraperFunction) (k : Nat) (st : ScrapeTrace)
    (hN : 0 < tier.length) (hst : st.invoked = []) :
    (scrapeTier env cp cb paper path tier k 0 tier.length st).1.invoked.head?
      = some (tier.getD (k % tier.length) default).name := by
  rcases hfuel : tier.length with _ | N
  · omega
  · have key : ∀ m j st1,
        (scrapeTier env cp cb paper path tier k j (m + 1) st1).1.invoked.head?
          = (st1.invoked ++
              [(tier.getD ((k + j) % tier.length) default).name]).head? := by
      intro m j st1
      rw [scrapeTier]
      rcases henv : env (tier.getD ((k + j) % tier.length) default) paper path
        with e | result
      · dsimp only
        obtain ⟨tail, htail⟩ := scrapeTier_invoked_append env cp cb paper path
          tier k m (j + 1)
          { st1 with
              invoked := st1.invoked ++
                [(tier.getD ((k + j) % tier.length) default).name],
              m := omSet st1.m
                (tier.getD ((k + j) % tier.length) default).name "failed" }
        rw [htail]
        simp [List.head?_append]
      · dsimp only
        by_cases hcond : result &&
            (!(tier.getD ((k + j) % tier.length) default).check_pdf || cp path)
        · rw [if_pos hcond]
          rcases cb with _ | f
          · rfl
          · dsimp only
            rcases ht : paper.getTitle with e | t
            · dsimp only
              obtain ⟨tail, htail⟩ := scrapeTier_invoked_append env cp
                (some f) paper path tier k m (j + 1)
                { st1 with
                    invoked := st1.invoked ++
                      [(tier.getD ((k + j) % tier.length) default).name],
                    m := omSet (omSet st1.m
                      (tier.getD ((k + j) % tier.length) default).name
                      "success")
                      (tier.getD ((k + j) % tier.length) default).name
                      "failed" }
              rw [htail]
              simp [List.head?_append]
            · dsimp only
              rcases hf : f t (omSet st1.m
                  (tier.getD ((k + j) % tier.length) default).name "success")
                with e | u
              · dsimp only
                obtain ⟨tail, htail⟩ := scrapeTier_invoked_append env cp
                  (some f) paper path tier k m (j + 1)
                  { st1 with
                      invoked := st1.invoked ++
                        [(tier.getD ((k + j) % tier.length) default).name],
                      m := omSet (omSet st1.m
                        (tier.getD ((k + j) % tier.length) default).name
                        "success")
                        (tier.getD ((k + j) % tier.length) default).name
                        "failed",
                      cbs := st1.cbs ++ [(t, omSet st1.m
                        (tier.getD ((k + j) % tier.length) default).name
                        "success")] }
                rw [htail]
                simp [List.head?_append]
              · rfl
        · rw [if_neg hcond]
          obtain ⟨tail, htail⟩ := scrapeTier_invoked_append env cp cb paper
            path tier k m (j + 1)
            { st1 with
                invoked := st1.invoked ++
                  [(tier.getD ((k + j) % tier.length) default).name],
                m := omSet st1.m
                  (tier.getD ((k + j) % tier.length) default).name "failed" }
          rw [htail]
          simp [List.head?_append]
    have h := key N 0 st
    rw [Nat.add_zero, hfuel] at h
    rw [h, hst]
    simp

theorem scrapeTier_rotation (env : StratEnv) (cp : String → Bool)
    (cb : Option Cb) (paper : Paper) (path : String)
    (tier : List ScraperFunction) (i : Nat)
    (henv : ∀ s, env s paper path = .ok false) :
    ∀ n j st,
      (scrapeTier env cp cb paper path tier i j n st).1.invoked
        = st.invoked ++ (List.range n).map
            (fun t => (tier.getD ((i + (j + t)) % tier.length) default).name)
      ∧ (scrapeTier env cp cb paper path tier i j n st).2 = none := by
  intro n
  induction n with
  | zero =>
    intro j st
    rw [scrapeTier]
    simp
  | succ n ih =>
    intro j st
    rw [scrapeTier, henv]
    dsimp only
    rw [if_neg (by simp)]
    obtain ⟨h1, h2⟩ := ih (j + 1)
      { st with
          invoked := st.invoked ++
            [(tier.getD ((i + j) % tier.length) default).name],
          m := omSet st.m
            (tier.getD ((i + j) % tier.length) default).name "failed" }
    refine ⟨?_, h2⟩
    rw [h1]
    dsimp only
    rw [List.range_succ_eq_map, List.map_cons, List.map_map, List.append_assoc,
      List.singleton_append]
    congr 1
    have hhead : (tier.getD ((i + (j + 0)) % tier.length) default).name
        = (tier.getD ((i + j) % tier.length) default).name := by
      rw [Nat.add_zero]
    rw [hhead]
    congr 1
    apply List.map_congr_left
    intro t ht
    simp only [Function.comp, Nat.succ_eq_add_one]
    have harg : i + (j + 1 + t) = i + (j + (t + 1)) := by omega
    rw [harg]

theorem map_getD_range {α : Type} (d : α) (l : List α) :
    (List.range l.length).map (fun idx => l.getD idx d) = l := by
  induction l with
  | nil => rfl
  | cons a as ih =>
    rw [List.length_cons, List.range_succ_eq_map, List.map_cons, List.map_map]
    have hcomp : ((fun idx => (a :: as).getD idx d) ∘ Nat.succ)
        = (fun idx => as.getD idx d) := by
      funext idx
      rfl
    rw [hcomp, ih]
    rfl

/-- C5: within a tier of `N` strategies and start offset `k`, the first
strategy attempted is the one at index `k mod N` (for any environment);
when no strategy succeeds the attempts wrap around the tier in order,
visiting index `(k + t) mod N` at step `t` with no secondary ordering; and
across offsets `0..N-1` the first-attempted strategies are exactly the tier
in order — each strategy first exactly once. -/
theorem C5_offset_rotation (cp : String → Bool) (cb : Option Cb)
    (paper : Paper) (path : String) (tier : List ScraperFunction)
    (k : Nat) (st : ScrapeTrace)
    (hN : 0 < tier.length) (hst : st.invoked = []) :
    (∀ env' : StratEnv,
      (scrapeTier env' cp cb paper path tier k 0 tier.length st).1.invoked.head?
        = some (tier.getD (k % tier.length) default).name)
    ∧ (∀ env : StratEnv, (∀ s, env s paper path = .ok false) →
      (scrapeTier env cp cb paper path tier k 0 tier.length st).1.invoked
        = (List.range tier.length).map
            (fun t => (tier.getD ((k + t) % tier.length) default).name)
      ∧ (scrapeTier env cp cb paper path tier k 0 tier.length st).2 = none)
    ∧ ((List.range tier.length).map
        (fun k0 => (tier.getD (k0 % tier.length) default).name)
        = tier.map (fun s => s.name)) := by
  refine ⟨?_, ?_, ?_⟩
  · intro env'
    exact scrapeTier_first_invoked env' cp cb paper path tier k st hN hst
  · intro env henv
    obtain ⟨h1, h2⟩ := scrapeTier_rotation env cp cb paper path tier k henv
      tier.length 0 st
    rw [hst] at h1
    refine ⟨by rw [h1]; simp, h2⟩
  · have hcong : ∀ k0 ∈ List.range tier.length,
        (tier.getD (k0 % tier.length) default).name
          = (tier.getD k0 default).name := by
      intro k0 hk0
      rw [Nat.mod_eq_of_lt (List.mem_range.mp hk0)]
    rw [List.map_congr_left hcong]
    have hmm := map_getD_range (default : ScraperFunction) tier
    calc (List.range tier.length).map (fun k0 => (tier.getD k0 default).name)
        = ((List.range tier.length).map
            (fun k0 => tier.getD k0 default)).map (fun s => s.name) := by
          rw [List.map_map]
          rfl
      _ = tier.map (fun s => s.name) := by rw [hmm]

/-- Witness for C5 on the two-element tier `tierW` at offset 1: `"B"` is
attempted first, then `"A"`. -/
theorem C5_offset_rotation_witness :
    0 < tierW.length
    ∧ (scrapeTier envFalse (fun _ => false) none paperT "p.pdf" tierW 1 0
        tierW.length stW).1.invoked = ["B", "A"]
    ∧ (List.range tierW.length).map
        (fun k0 => (tierW.getD (k0 % tierW.length) default).name)
        = tierW.map (fun s => s.name) := by
  have h := C5_offset_rotation (fun _ => false) none paperT "p.pdf" tierW 1 stW
    (by decide) rfl
  refine ⟨by decide, ?_, h.2.2⟩
  have h2 := (h.2.1 envFalse (fun _ => rfl)).1
  rw [h2]
  decide

/-- Witness for C1 on `tierW`: the first strategy returns `True` with the
check flag unset, is marked `"success"`, and the tier loop returns `True`
immediately with only `"A"` invoked. -/
theorem C1_first_success_wins_witness :
    scrapeTier envTrue (fun _ => false) none paperT "p.pdf" tierW 0 0 2 stW
      = ({ stW with
            invoked := stW.invoked ++ ["A"],
            m := omSet stW.m "A" "success" }, some (.ok true)) := by
  exact (C1_first_success_wins envTrue (fun _ => false) none paperT "p.pdf"
    tierW 0 0 1 stW (tierW.getD 0 default) rfl rfl).2.1 (Or.inl rfl) rfl

theorem resp_shift (responses : Nat → Nat) (a m : Nat) :
    (List.range (m + 1)).map (fun k => responses (a + k))
      = responses a ::
        (List.range m).map (fun k => responses (a + 1 + k)) := by
  rw [List.range_succ_eq_map, List.map_cons, List.map_map]
  congr 1
  apply List.map_congr_left
  intro k hk
  simp only [Function.comp, Nat.succ_eq_add_one]
  have hsh : a + (k + 1) = a + 1 + k := by omega
  rw [hsh]

theorem sleeps_shift (jitter : Nat → ℚ) (r m : Nat) :
    (List.range (m + 1)).map
      (fun k => (1 / 10 : ℚ) * (2 ^ (r + k) + jitter (r + k)))
      = (1 / 10 : ℚ) * (2 ^ r + jitter r) ::
        (List.range m).map
          (fun k => (1 / 10 : ℚ) * (2 ^ (r + 1 + k) + jitter (r + 1 + k))) := by
  rw [List.range_succ_eq_map, List.map_cons, List.map_map]
  congr 1
  apply List.map_congr_left
  intro k hk
  simp only [Function.comp, Nat.succ_eq_add_one]
  have hsh : r + (k + 1) = r + 1 + k := by omega
  rw [hsh]

theorem requestLoop_success (responses : Nat → Nat) (jitter : Nat → ℚ) :
    ∀ m n r tr, m ≤ n →
      (∀ k < m, responses (tr.requests.length + k)
        ∈ SERVICE_LIMIT_REACHED_STATUS_CODES) →
      responses (tr.requests.length + m)
        ∉ SERVICE_LIMIT_REACHED_STATUS_CODES →
      requestLoop true responses jitter r (n + 1) tr =
        ({ acquisitions := tr.acquisitions + (m + 1),
           requests := tr.requests ++ (List.range (m + 1)).map
             (fun k => responses (tr.requests.length + k)),
           sleeps := tr.sleeps ++ (List.range m).map
             (fun k => (1 / 10 : ℚ) * (2 ^ (r + k) + jitter (r + k))) },
         .ok (responses (tr.requests.length + m))) := by
  intro m
  induction m with
  | zero =>
    intro n r tr hmn hsl hok
    rw [Nat.add_zero] at hok
    rw [requestLoop]
    dsimp only
    rw [if_neg (by simpa using hok)]
    rw [resp_shift responses tr.requests.length 0]
    simp
  | succ m ih =>
    intro n r tr hmn hsl hok
    rcases n with _ | n
    · omega
    rw [requestLoop]
    dsimp only
    rw [if_pos (by simpa using hsl 0 (by omega))]
    have hlen : (tr.requests ++ [responses tr.requests.length]).length
        = tr.requests.length + 1 := by simp
    have ih' := ih n (r + 1)
      { tr with
          acquisitions := tr.acquisitions + 1,
          requests := tr.requests ++ [responses tr.requests.length],
          sleeps := tr.sleeps ++
            [(1 / 10 : ℚ) * (2 ^ r + jitter r)] }
      (by omega)
      (by
        intro k hk
        dsimp only
        rw [hlen, show tr.requests.length + 1 + k
          = tr.requests.length + (k + 1) from by omega]
        exact hsl (k + 1) (by omega))
      (by
        dsimp only
        rw [hlen, show tr.requests.length + 1 + m
          = tr.requests.length + (m + 1) from by omega]
        exact hok)
    rw [ih']
    dsimp only
    rw [hlen, resp_shift responses tr.requests.length (m + 1),
      sleeps_shift jitter r m]
    refine Prod.ext ?_ ?_
    · show RequestTrace.mk _ _ _ = RequestTrace.mk _ _ _
      congr 1
      · omega
      · rw [List.append_assoc, List.singleton_append]
      · rw [List.append_assoc, List.singleton_append]
    · show Except.ok _ = Except.ok _
      congr 1
      congr 1
      omega

theorem requestLoop_exhaust (responses : Nat → Nat) (jitter : Nat → ℚ) :
    ∀ n r tr,
      (∀ k < n, responses (tr.requests.length + k)
        ∈ SERVICE_LIMIT_REACHED_STATUS_CODES) →
      (requestLoop true responses jitter r n tr).2 = .error .runtimeError
      ∧ (requestLoop true responses jitter r n tr).1.requests.length
          = tr.requests.length + n := by
  intro n
  induction n with
  | zero =>
    intro r tr hsl
    rw [requestLoop]
    exact ⟨rfl, rfl⟩
  | succ n ih =>
    intro r tr hsl
    rw [requestLoop]
    dsimp only
    rw [if_pos (by simpa using hsl 0 (by omega)), if_pos rfl]
    obtain ⟨h1, h2⟩ := ih (r + 1)
      { tr with
          acquisitions := tr.acquisitions + 1,
          requests := tr.requests ++ [responses tr.requests.length],
          sleeps := tr.sleeps ++ [(1 / 10 : ℚ) * (2 ^ r + jitter r)] }
      (by
        intro k hk
        dsimp only
        rw [List.length_append, List.length_singleton,
          show tr.requests.length + 1 + k = tr.requests.length + (k + 1)
            from by omega]
        exact hsl (k + 1) (by omega))
    refine ⟨h1, ?_⟩
    rw [h2]
    dsimp only
    rw [List.length_append, List.length_singleton]
    omega

theorem requestLoop_no_rate (responses : Nat → Nat) (jitter : Nat → ℚ)
    (r n : Nat) (tr : RequestTrace)
    (h : responses tr.requests.length ∈ SERVICE_LIMIT_REACHED_STATUS_CODES) :
    requestLoop false responses jitter r (n + 1) tr =
      ({ tr with
          acquisitions := tr.acquisitions + 1,
          requests := tr.requests ++ [responses tr.requests.length] },
        .error .notImplementedError) := by
  rw [requestLoop]
  dsimp only
  rw [if_pos (by simpa using h), if_neg (by simp)]

/-- C6: with a rate limit configured, a run of `m ≤ retry_count`
service-limit responses followed by a normal response yields that response:
each retry re-acquires a token (acquisitions is one per request) after an
exponential-backoff-with-jitter sleep `0.1 * (2^attempt + jitter)`; if all
`retry_count + 1` attempts hit service-limit statuses, the call raises
`RuntimeError` instead of returning a response; with no rate limit, a single
service-limit response raises `NotImplementedError` immediately with no
retry and no sleep; and a first response outside {429, 503, 504} is returned
with exactly one request issued (the `m = 0` instance of the first part). -/
theorem C6_service_limit_retry (retry_count : Nat) (responses : Nat → Nat)
    (jitter : Nat → ℚ) :
    (∀ m, m ≤ retry_count →
      (∀ k < m, responses k ∈ SERVICE_LIMIT_REACHED_STATUS_CODES) →
      responses m ∉ SERVICE_LIMIT_REACHED_STATUS_CODES →
      throttled_request true retry_count responses jitter =
        ({ acquisitions := m + 1,
           requests := (List.range (m + 1)).map responses,
           sleeps := (List.range m).map
             (fun k => (1 / 10 : ℚ) * (2 ^ k + jitter k)) },
         .ok (responses m)))
    ∧ ((∀ k < retry_count + 1,
        responses k ∈ SERVICE_LIMIT_REACHED_STATUS_CODES) →
      (throttled_request true retry_count responses jitter).2
        = .error .runtimeError)
    ∧ (responses 0 ∈ SERVICE_LIMIT_REACHED_STATUS_CODES →
      throttled_request false retry_count responses jitter =
        ({ acquisitions := 1, requests := [responses 0], sleeps := [] },
         .error .notImplementedError)) := by
  refine ⟨?_, ?_, ?_⟩
  · intro m hm hsl hok
    have h := requestLoop_success responses jitter m retry_count 0
      ⟨0, [], []⟩ hm (by simpa using hsl) (by simpa using hok)
    rw [throttled_request, h]
    refine Prod.ext ?_ ?_
    · show RequestTrace.mk _ _ _ = RequestTrace.mk _ _ _
      congr 1
      · simp
      · simp
      · simp
    · show Except.ok _ = Except.ok _
      simp
  · intro hsl
    have h := requestLoop_exhaust responses jitter (retry_count + 1) 0
      ⟨0, [], []⟩ (by simpa using hsl)
    rw [throttled_request]
    exact h.1
  · intro h0
    have h := requestLoop_no_rate responses jitter 0 retry_count
      ⟨0, [], []⟩ (by simpa using h0)
    rw [throttled_request, h]
    simp

/-- Witness for C6: two 429s then a 200 with `jitter = 1/2` give three
token acquisitions, sleeps `[0.15, 0.25]`, and the 200 response; with no
rate limit a single 503 raises `NotImplementedError` at once. -/
theorem C6_service_limit_retry_witness :
    throttled_request true 5 respW jitW =
      ({ acquisitions := 3, requests := [429, 429, 200],
         sleeps := [3 / 20, 1 / 4] }, .ok 200)
    ∧ throttled_request false 5 (fun _ => 503) jitW =
      ({ acquisitions := 1, requests := [503], sleeps := [] },
        .error .notImplementedError) := by
  constructor
  · have h := (C6_service_limit_retry 5 respW jitW).1 2 (by omega)
      (by decide) (by decide)
    rw [h]
    refine Prod.ext ?_ ?_
    · show RequestTrace.mk _ _ _ = RequestTrace.mk _ _ _
      congr 1
      norm_num [jitW, List.range_succ]
    · show Except.ok (respW 2) = Except.ok 200
      rfl
  · exact (C6_service_limit_retry 5 (fun _ => 503) jitW).2.2 (by decide)

theorem toNat_floor_le_self (x : ℚ) (hx : 0 ≤ x) :
    ((Int.toNat ⌊x⌋ : ℕ) : ℚ) ≤ x := by
  have h : ((⌊x⌋.toNat : ℤ) : ℚ) = ((⌊x⌋ : ℤ) : ℚ) := by
    rw [Int.toNat_of_nonneg (Int.floor_nonneg.mpr hx)]
  have h2 : ((⌊x⌋ : ℤ) : ℚ) ≤ x := Int.floor_le x
  calc ((⌊x⌋.toNat : ℕ) : ℚ) = ((⌊x⌋.toNat : ℤ) : ℚ) := by push_cast; ring
    _ = ((⌊x⌋ : ℤ) : ℚ) := h
    _ ≤ x := h2

theorem sub_one_le_toNat_floor (x : ℚ) :
    x - 1 ≤ ((Int.toNat ⌊x⌋ : ℕ) : ℚ) := by
  by_cases hx : 0 ≤ x
  · have h := Int.toNat_of_nonneg (Int.floor_nonneg.mpr hx)
    have h2 := Int.sub_one_lt_floor x
    have : ((⌊x⌋.toNat : ℤ) : ℚ) = ((⌊x⌋ : ℤ) : ℚ) := by rw [h]
    push_cast at this ⊢
    rw [this]
    exact le_of_lt h2
  · push_neg at hx
    have : x - 1 ≤ 0 := by linarith
    calc x - 1 ≤ 0 := this
      _ ≤ ((Int.toNat ⌊x⌋ : ℕ) : ℚ) := by positivity

/-- C7: per filler iteration the number of `put_nowait` calls equals
`min(floor(elapsed * rate), maxsize - qsize)` (stated over ℤ to match the
spec's formula), the queue size grows by exactly that amount and never
exceeds its capacity over any run; the total tokens produced over a run
never exceed `total_elapsed * rate`, and whenever the space clamp never
binds they are at least `total_elapsed * rate - iterations`, so the
production rate over a window approaches the configured rate. -/
theorem C7_filler_token_arithmetic (rate : ℚ) (maxsize : Nat) :
    (∀ qsize t, qsize ≤ maxsize → 0 ≤ t * rate →
      ((fillerAdd rate maxsize qsize t : ℕ) : ℤ)
        = min ⌊t * rate⌋ ((maxsize : ℤ) - (qsize : ℤ))
      ∧ fillerStep rate maxsize qsize t
        = qsize + fillerAdd rate maxsize qsize t
      ∧ fillerStep rate maxsize qsize t ≤ maxsize)
    ∧ (∀ ts qsize, qsize ≤ maxsize →
        (fillerRun rate maxsize qsize ts).1 ≤ maxsize)
    ∧ (0 ≤ rate → ∀ ts qsize, (∀ t ∈ ts, 0 ≤ t) →
        (((fillerRun rate maxsize qsize ts).2 : ℕ) : ℚ) ≤ ts.sum * rate)
    ∧ (∀ ts qsize, fillerNoClamp rate maxsize qsize ts →
        ts.sum * rate - ts.length
          ≤ (((fillerRun rate maxsize qsize ts).2 : ℕ) : ℚ)) := by
  refine ⟨?_, ?_, ?_, ?_⟩
  · intro qsize t hq ht
    refine ⟨?_, rfl, ?_⟩
    · rw [fillerAdd]
      push_cast [Int.toNat_of_nonneg (Int.floor_nonneg.mpr ht),
        Nat.cast_sub hq]
      rfl
    · have hmin := Nat.min_le_right (Int.toNat ⌊t * rate⌋) (maxsize - qsize)
      rw [fillerStep, fillerAdd]
      omega
  · intro ts
    induction ts with
    | nil =>
      intro qsize hq
      exact hq
    | cons t ts ih =>
      intro qsize hq
      rw [fillerRun]
      apply ih
      have hmin := Nat.min_le_right (Int.toNat ⌊t * rate⌋) (maxsize - qsize)
      rw [fillerAdd]
      omega
  · intro hrate ts
    induction ts with
    | nil =>
      intro qsize hts
      simp [fillerRun]
    | cons t ts ih =>
      intro qsize hts
      rw [fillerRun]
      dsimp only
      have ht : 0 ≤ t := hts t (List.mem_cons_self t ts)
      have htr : 0 ≤ t * rate := mul_nonneg ht hrate
      have hadd : ((fillerAdd rate maxsize qsize t : ℕ) : ℚ) ≤ t * rate := by
        calc ((fillerAdd rate maxsize qsize t : ℕ) : ℚ)
            ≤ ((Int.toNat ⌊t * rate⌋ : ℕ) : ℚ) := by
              exact_mod_cast Nat.min_le_left _ _
          _ ≤ t * rate := toNat_floor_le_self _ htr
      have hrest := ih (qsize + fillerAdd rate maxsize qsize t)
        (fun u hu => hts u (List.mem_cons_of_mem t hu))
      rw [List.sum_cons, add_mul]
      push_cast
      push_cast at hadd hrest
      linarith
  · intro ts
    induction ts with
    | nil =>
      intro qsize hnc
      simp [fillerRun]
    | cons t ts ih =>
      intro qsize hnc
      obtain ⟨h1, h2⟩ := hnc
      rw [fillerRun]
      dsimp only
      have hadd : t * rate - 1
          ≤ ((fillerAdd rate maxsize qsize t : ℕ) : ℚ) := by
        rw [fillerAdd, Nat.min_eq_left h1]
        exact sub_one_le_toNat_floor _
      have hrest := ih (fillerStep rate maxsize qsize t) h2
      rw [List.sum_cons, add_mul, List.length_cons]
      rw [fillerStep] at hrest
      push_cast
      push_cast at hadd hrest
      linarith

/-- Witness for C7 at `rate = 2`, `maxsize = 5`, elapsed times `[1, 3/2]`
from an empty queue: 2 then 3 tokens are added (5 total), the queue stays
within capacity, and the total is bounded by `elapsed * rate` on both
sides. -/
theorem C7_filler_token_arithmetic_witness :
    (fillerRun 2 5 0 [1, 3 / 2]).2 = 5
    ∧ (fillerRun 2 5 0 [1, 3 / 2]).1 ≤ 5
    ∧ ((((fillerRun 2 5 0 [1, 3 / 2]).2 : ℕ) : ℚ)
        ≤ ([(1 : ℚ), 3 / 2].sum) * 2)
    ∧ ([(1 : ℚ), 3 / 2].sum * 2 - ([(1 : ℚ), 3 / 2].length : ℚ)
        ≤ (((fillerRun 2 5 0 [1, 3 / 2]).2 : ℕ) : ℚ)) := by
  have h := C7_filler_token_arithmetic 2 5
  have hnc : fillerNoClamp 2 5 0 [1, 3 / 2] := by
    refine ⟨by norm_num, by norm_num [fillerStep, fillerAdd], trivial⟩
  refine ⟨?_, h.2.1 [1, 3 / 2] 0 (by omega), ?_, h.2.2.2 [1, 3 / 2] 0 hnc⟩
  · norm_num [fillerRun, fillerAdd]
    decide
  · exact h.2.2.1 (by norm_num) [1, 3 / 2] 0 (by
      intro t ht
      rcases List.mem_cons.mp ht with rfl | ht2
      · norm_num
      · rcases List.mem_cons.mp ht2 with rfl | ht3
        · norm_num
        · simp at ht3)

theorem paperIdx_take : ∀ (l : List Paper) (n m : Nat),
    (paperIdx l n).take m = paperIdx (l.take m) n := by
  intro l
  induction l with
  | nil => intro n m; simp [paperIdx]
  | cons p ps ih =>
    intro n m
    rcases m with _ | m
    · simp [paperIdx]
    · rw [paperIdx, List.take_succ_cons, List.take_succ_cons, paperIdx, ih]

theorem paperIdx_drop : ∀ (l : List Paper) (n m : Nat),
    (paperIdx l n).drop m = paperIdx (l.drop m) (n + m) := by
  intro l
  induction l with
  | nil => intro n m; simp [paperIdx]
  | cons p ps ih =>
    intro n m
    rcases m with _ | m
    · simp [paperIdx]
    · rw [paperIdx, List.drop_succ_cons, List.drop_succ_cons, ih]
      congr 1
      omega

theorem paperIdx_mem : ∀ (l : List Paper) (n : Nat) (q : Paper × Nat),
    q ∈ paperIdx l n → q.1 ∈ l := by
  intro l
  induction l with
  | nil => intro n q h; simp [paperIdx] at h
  | cons p ps ih =>
    intro n q h
    rw [paperIdx] at h
    rcases List.mem_cons.mp h with rfl | h2
    · exact List.mem_cons_self _ _
    · exact List.mem_cons_of_mem _ (ih (n + 1) q h2)

theorem enumFrom_map_eq_paperIdx {α : Type} (F : Paper → Nat → α) :
    ∀ (chunk : List Paper) (j idx : Nat),
      (List.enumFrom j chunk).map (fun jp => F jp.2 (idx + jp.1))
        = (paperIdx chunk (idx + j)).map (fun q => F q.1 q.2) := by
  intro chunk
  induction chunk with
  | nil => intro j idx; rfl
  | cons p cs ih =>
    intro j idx
    rw [List.enumFrom_cons, List.map_cons, paperIdx, List.map_cons]
    congr 1
    rw [ih (j + 1) idx]
    have hadd : idx + (j + 1) = idx + j + 1 := by omega
    rw [hadd]

theorem enum_map_eq_paperIdx {α : Type} (F : Paper → Nat → α)
    (chunk : List Paper) (idx : Nat) :
    chunk.enum.map (fun jp => F jp.2 (idx + jp.1))
      = (paperIdx chunk idx).map (fun q => F q.1 q.2) := by
  have h := enumFrom_map_eq_paperIdx F chunk 0 idx
  rw [Nat.add_zero] at h
  exact h

theorem gatherResults_ok_map {α β : Type} (g : β → α) :
    ∀ l : List β,
      gatherResults (l.map (fun b => Except.ok (g b))) = .ok (l.map g) := by
  intro l
  induction l with
  | nil => rfl
  | cons b bs ih =>
    rw [List.map_cons, gatherResults, ih, List.map_cons]

theorem specBatchAux_congr {μ : Type} (f : Paper → Nat → Option (String × μ))
    (b : Nat) (limit : Option Nat) :
    ∀ n fuel1 fuel2 (pairs : List (Paper × Nat)) agg,
      pairs.length ≤ n → pairs.length ≤ fuel1 → pairs.length ≤ fuel2 →
      specBatchAux f b limit fuel1 pairs agg
        = specBatchAux f b limit fuel2 pairs agg := by
  intro n
  induction n with
  | zero =>
    intro fuel1 fuel2 pairs agg hn h1 h2
    have : pairs = [] := List.length_eq_zero.mp (by omega)
    subst this
    rcases fuel1 with _ | f1 <;> rcases fuel2 with _ | f2 <;> rfl
  | succ n ihn =>
    intro fuel1 fuel2 pairs agg hn h1 h2
    rcases pairs with _ | ⟨pg, rem⟩
    · rcases fuel1 with _ | f1 <;> rcases fuel2 with _ | f2 <;> rfl
    · rcases fuel1 with _ | f1
      · simp at h1
      rcases fuel2 with _ | f2
      · simp at h2
      rw [specBatchAux.eq_def]
      conv_rhs => rw [specBatchAux.eq_def]
      dsimp only
      have hdrop : (rem.drop (b - 1)).length ≤ n := by
        have := List.length_drop (b - 1) rem
        simp at hn
        omega
      rw [ihn f1 f2 (rem.drop (b - 1)) _ hdrop
        (by have := List.length_drop (b - 1) rem; simp at h1; omega)
        (by have := List.length_drop (b - 1) rem; simp at h2; omega)]

theorem specBatch_unfold_cons {μ : Type}
    (f : Paper → Nat → Option (String × μ)) (b : Nat) (limit : Option Nat)
    (pg : Paper × Nat) (rem : List (Paper × Nat))
    (agg : List (String × μ)) :
    specBatch f b limit (pg :: rem) agg
      = (let chunk := pg :: rem.take (b - 1)
         let agg' := dictMerge agg (chunk.filterMap (fun q => f q.1 q.2))
         let stop : Bool := match limit with
           | some lim => decide (lim ≤ agg'.length)
           | none => false
         if stop then (agg', chunk)
         else
           let rest := specBatch f b limit (rem.drop (b - 1)) agg'
           (rest.1, chunk ++ rest.2)) := by
  rw [specBatch, List.length_cons, specBatchAux.eq_def]
  dsimp only
  rw [specBatchAux_congr f b limit rem.length rem.length
    (rem.drop (b - 1)).length (rem.drop (b - 1)) _
    (by have := List.length_drop (b - 1) rem; omega)
    (by have := List.length_drop (b - 1) rem; omega)
    (le_refl _)]
  rfl

theorem batchLoopAux_refines {μ : Type} (sc : Scraper) (cb : Option Cb)
    (env : StratEnv) (cp : String → Bool) (dir : String)
    (preproc : Paper → Except PyErr Paper) (parser : Paper → Except PyErr μ)
    (f : Paper → Nat → Option (String × μ)) (b1 : Nat) (limit : Option Nat) :
    ∀ N papers, papers.length ≤ N →
      (∀ p ∈ papers, ∀ g,
        (scrape_parse sc cb env cp dir preproc parser p g).1 = .ok (f p g)) →
      ∀ idx (st : BatchState μ),
        (batchLoopAux sc cb env cp dir preproc parser b1 limit N papers idx
            st).2
          = none
        ∧ (batchLoopAux sc cb env cp dir preproc parser b1 limit N papers idx
            st).1.aggregated
          = (specBatch f (b1 + 1) limit (paperIdx papers idx)
              st.aggregated).1
        ∧ (batchLoopAux sc cb env cp dir preproc parser b1 limit N papers idx
            st).1.attempted
          = st.attempted ++ (specBatch f (b1 + 1) limit (paperIdx papers idx)
              st.aggregated).2 := by
  intro N
  induction N with
  | zero =>
    intro papers hlen hf idx st
    have hnil : papers = [] := List.length_eq_zero.mp (by omega)
    subst hnil
    refine ⟨rfl, rfl, ?_⟩
    show st.attempted = st.attempted ++ []
    rw [List.append_nil]
  | succ N ih =>
    intro papers hlen hf idx st
    rcases papers with _ | ⟨p, rest⟩
    · refine ⟨rfl, rfl, ?_⟩
      show st.attempted = st.attempted ++ []
      rw [List.append_nil]
    · rw [batchLoopAux.eq_def]
      dsimp only
      have hgather : gatherResults
          (List.map Prod.fst
            (List.map
              (fun jp => scrape_parse sc cb env cp dir preproc parser jp.2
                (idx + jp.1))
              (p :: List.take b1 rest).enum))
          = .ok ((paperIdx (p :: List.take b1 rest) idx).map
              (fun q => f q.1 q.2)) := by
        rw [List.map_map]
        have hfun : (Prod.fst ∘ fun jp =>
            scrape_parse sc cb env cp dir preproc parser jp.2 (idx + jp.1))
            = (fun jp : Nat × Paper =>
              (scrape_parse sc cb env cp dir preproc parser jp.2
                (idx + jp.1)).1) := rfl
        rw [hfun,
          enum_map_eq_paperIdx
            (fun a b => (scrape_parse sc cb env cp dir preproc parser a b).1)
            (p :: List.take b1 rest) idx]
        have hm : (paperIdx (p :: List.take b1 rest) idx).map
            (fun q => (scrape_parse sc cb env cp dir preproc parser q.1
              q.2).1)
            = (paperIdx (p :: List.take b1 rest) idx).map
              (fun q => Except.ok (f q.1 q.2)) := by
          apply List.map_congr_left
          intro q hq
          have hq1 : q.1 ∈ p :: List.take b1 rest := paperIdx_mem _ idx q hq
          have hq2 : q.1 ∈ p :: rest := by
            rcases List.mem_cons.mp hq1 with h1 | h2
            · rw [h1]; exact List.mem_cons_self _ _
            · exact List.mem_cons_of_mem _ (List.take_subset _ _ h2)
          exact hf q.1 hq2 q.2
        rw [hm, gatherResults_ok_map]
      rw [hgather]
      dsimp only
      have hatt : List.map (fun jp => (jp.2, idx + jp.1))
          (p :: List.take b1 rest).enum
          = paperIdx (p :: List.take b1 rest) idx := by
        rw [enum_map_eq_paperIdx (fun a b => (a, b))
          (p :: List.take b1 rest) idx]
        simp
      rw [hatt]
      have hfm : List.filterMap id
          ((paperIdx (p :: List.take b1 rest) idx).map (fun q => f q.1 q.2))
          = (paperIdx (p :: List.take b1 rest) idx).filterMap
            (fun q => f q.1 q.2) := by
        rw [List.filterMap_map]
        rfl
      rw [hfm]
      have hchunk : paperIdx (p :: List.take b1 rest) idx
          = (p, idx) :: (paperIdx rest (idx + 1)).take b1 := by
        rw [paperIdx, paperIdx_take]
      rw [show paperIdx (p :: rest) idx
        = (p, idx) :: paperIdx rest (idx + 1) from rfl]
      rw [specBatch_unfold_cons f (b1 + 1) limit (p, idx)
        (paperIdx rest (idx + 1)) st.aggregated]
      dsimp only
      rw [Nat.add_sub_cancel, ← hchunk]
      set chunkp := paperIdx (p :: List.take b1 rest) idx with hcp
      set agg1 := dictMerge st.aggregated
        (chunkp.filterMap (fun q => f q.1 q.2)) with hagg1
      have hlen2 : (List.drop b1 rest).length ≤ N := by
        have := List.length_drop b1 rest
        simp at hlen
        omega
      have hf2 : ∀ q ∈ List.drop b1 rest, ∀ g,
          (scrape_parse sc cb env cp dir preproc parser q g).1
            = .ok (f q g) := by
        intro q hq g
        exact hf q (List.mem_cons_of_mem _ (List.drop_subset _ _ hq)) g
      have hrec := ih (List.drop b1 rest) hlen2 hf2 (idx + (b1 + 1))
        { aggregated := agg1,
          attempted := st.attempted ++ chunkp,
          downloaded := st.downloaded ++
            (List.map Prod.snd
              (List.map
                (fun jp => scrape_parse sc cb env cp dir preproc parser jp.2
                  (idx + jp.1))
                (p :: List.take b1 rest).enum)).flatten }
      have hpi : paperIdx (List.drop b1 rest) (idx + (b1 + 1))
          = (paperIdx rest (idx + 1)).drop b1 := by
        rw [paperIdx_drop]
        congr 1
        omega
      rcases limit with _ | lim
      · dsimp only
        rw [if_neg (show ¬(false = true) from by simp)]
        rw [hpi] at hrec
        exact ⟨hrec.1, hrec.2.1, by
          rw [hrec.2.2]
          dsimp only
          rw [List.append_assoc]⟩
      · dsimp only
        by_cases hlim : lim ≤ agg1.length
        · rw [if_pos hlim, if_pos (by simpa using hlim)]
          exact ⟨rfl, rfl, rfl⟩
        · rw [if_neg hlim, if_neg (by simpa using hlim)]
          rw [hpi] at hrec
          exact ⟨hrec.1, hrec.2.1, by
            rw [hrec.2.2]
            dsimp only
            rw [List.append_assoc]⟩

theorem batchLoop_refines {μ : Type} (sc : Scraper) (cb : Option Cb)
    (env : StratEnv) (cp : String → Bool) (dir : String)
    (preproc : Paper → Except PyErr Paper) (parser : Paper → Except PyErr μ)
    (f : Paper → Nat → Option (String × μ)) (b1 : Nat) (limit : Option Nat)
    (papers : List Paper)
    (hf : ∀ p ∈ papers, ∀ g,
      (scrape_parse sc cb env cp dir preproc parser p g).1 = .ok (f p g))
    (idx : Nat) (st : BatchState μ) :
    (batchLoop sc cb env cp dir preproc parser b1 limit papers idx st).2
      = none
    ∧ (batchLoop sc cb env cp dir preproc parser b1 limit papers idx
        st).1.aggregated
      = (specBatch f (b1 + 1) limit (paperIdx papers idx) st.aggregated).1
    ∧ (batchLoop sc cb env cp dir preproc parser b1 limit papers idx
        st).1.attempted
      = st.attempted
        ++ (specBatch f (b1 + 1) limit (paperIdx papers idx)
            st.aggregated).2 :=
  batchLoopAux_refines sc cb env cp dir preproc parser f b1 limit
    papers.length papers (le_refl _) hf idx st

/-- C8: with a positive batch size and per-paper outcomes given by `f` (no
task raising), `batch_scrape` produces exactly the aggregate and the issued
`(paper, offset)` pairs of the spec-side chunked reference `specBatch`:
consecutive chunks of `batch_size` papers, each paper issued with a start
offset equal to its global index, and no new chunk issued once the
aggregated success count has reached the limit. -/
theorem C8_batch_chunks_early_stop {μ : Type} (sc : Scraper)
    (cb : Option Cb) (env : StratEnv) (cp : String → Bool)
    (papers : List Paper) (dir : String)
    (preproc : Paper → Except PyErr Paper) (parser : Paper → Except PyErr μ)
    (f : Paper → Nat → Option (String × μ)) (batch_size : Nat)
    (limit : Option Nat) (hb : 0 < batch_size)
    (hf : ∀ p ∈ papers, ∀ g,
      (scrape_parse sc cb env cp dir preproc parser p g).1 = .ok (f p g)) :
    (batch_scrape sc cb env cp papers dir preproc parser batch_size
        limit).result
      = .ok ((specBatch f batch_size limit (paperIdx papers 0) []).1)
    ∧ (batch_scrape sc cb env cp papers dir preproc parser batch_size
        limit).attempted
      = (specBatch f batch_size limit (paperIdx papers 0) []).2 := by
  have hb1 : batch_size - 1 + 1 = batch_size := by omega
  have h := batchLoop_refines sc cb env cp dir preproc parser f
    (batch_size - 1) limit papers hf 0 ⟨[], [], []⟩
  rw [hb1] at h
  rw [batch_scrape, if_neg (show ¬batch_size = 0 from by omega)]
  rcases hsplit : batchLoop sc cb env cp dir preproc parser (batch_size - 1)
    limit papers 0 ⟨[], [], []⟩ with ⟨stf, o⟩
  rw [hsplit] at h
  have ho : o = none := h.1
  subst ho
  dsimp only
  exact ⟨by rw [h.2.1], by rw [h.2.2]; simp⟩

theorem scrapeTier_single_success (env : StratEnv) (cp : String → Bool)
    (paper : Paper) (path : String) (s : ScraperFunction) (g : Nat)
    (st : ScrapeTrace)
    (henv : env s paper path = .ok true)
    (hcheck : s.check_pdf = false ∨ cp path = true) :
    scrapeTier env cp none paper path [s] g 0 1 st
      = ({ st with
            invoked := st.invoked ++ [s.name],
            m := omSet st.m s.name "success" }, some (.ok true)) := by
  rw [scrapeTier]
  have hidx : (g + 0) % [s].length = 0 := by simp [Nat.mod_one]
  rw [hidx]
  rw [show ([s].getD 0 default) = s from rfl]
  rw [henv]
  rcases hcheck with hc | hc
  · simp [hc]
  · simp [hc]

theorem scrape_scOne_success (p : Paper) (path : String) (g : Nat) :
    (scrape scOne none envTrue (fun _ => true) p path g).result
      = .ok true := by
  have ht := scrapeTier_single_success envTrue (fun _ => true) p path
    ⟨fX1, 10, false, "strategy", true⟩ g
    ⟨omInit scOne.scrapers, [], []⟩ rfl (Or.inr rfl)
  rw [scrape]
  rw [show scOne.sorted_scrapers.reverse
    = [[⟨fX1, 10, false, "strategy", true⟩]] from rfl]
  rw [scrapeTiers]
  rw [show ([⟨fX1, 10, false, "strategy", true⟩] :
    List ScraperFunction).length = 1 from rfl]
  rw [ht]


theorem scrape_parse_scOne (p : Paper) (pid : String)
    (hp : p.paperId = some pid) (g : Nat) :
    (scrape_parse (μ := Unit) scOne none envTrue (fun _ => true) "d"
      (fun q => .ok q) (fun _ => .ok ()) p g).1
      = .ok (some ("d" ++ "/" ++ pid ++ ".pdf", ())) := by
  rw [scrape_parse]
  dsimp only
  rw [show p.getPaperId = .ok pid from by rw [Paper.getPaperId, hp]]
  dsimp only
  rw [scrape_scOne_success p ("d" ++ "/" ++ pid ++ ".pdf") g]
  rfl

theorem hfW : ∀ p ∈ papersW, ∀ g,
    (scrape_parse (μ := Unit) scOne none envTrue (fun _ => true) "d"
      (fun q => .ok q) (fun _ => .ok ()) p g).1 = .ok (fW p g) := by
  intro p hp g
  obtain ⟨k, hk, rfl⟩ := List.mem_map.mp hp
  rw [scrape_parse_scOne (mkPaperW k) ("ID" ++ toString k) rfl g]
  rfl

/-- Witness for C8 (spec scenario 3): 25 papers, `batch_size = 10`,
`limit = 12`, every scrape succeeding — exactly the first two chunks (the
20 papers at global indices 0–19, each issued with its global index as
offset) are attempted, the third chunk never is, and the result holds 20
entries. -/
theorem C8_batch_chunks_early_stop_witness :
    (batch_scrape (μ := Unit) scOne none envTrue (fun _ => true) papersW "d"
      (fun q => .ok q) (fun _ => .ok ()) 10 (some 12)).attempted
      = paperIdx (papersW.take 20) 0
    ∧ ∃ agg,
      (batch_scrape (μ := Unit) scOne none envTrue (fun _ => true) papersW
        "d" (fun q => .ok q) (fun _ => .ok ()) 10 (some 12)).result
        = .ok agg ∧ agg.length = 20 := by
  have h := C8_batch_chunks_early_stop (μ := Unit) scOne none envTrue
    (fun _ => true) papersW "d" (fun q => .ok q) (fun _ => .ok ()) fW 10
    (some 12) (by omega) hfW
  refine ⟨?_, ⟨_, h.1, ?_⟩⟩
  · rw [h.2]
    decide
  · decide

/-- Counterexample to C9 as stated: a preprocessor failure that is not a
`RuntimeError` (here `ValueError`) is not caught by `scrape_parse`, so it
propagates out of `batch_scrape` through the gather. -/
theorem C9_counterexample :
    (batch_scrape (μ := Unit) scOne none envTrue (fun _ => true) [paperT]
      "d" (fun _ => .error .valueError) (fun _ => .ok ()) 10 none).result
      = .error .valueError := by
  rfl

/-- C9 (amended): a `RuntimeError` failure of the preprocess step is caught
inside `scrape_parse` — the paper yields no result entry and no download;
a `RuntimeError` failure of the parse step after a successful scrape is
likewise caught — the paper yields no result entry while its downloaded
file remains on disk (the destination path stays in the written list, and
nothing deletes it); and when every per-paper task fails only in these
caught ways, `batch_scrape` raises nothing and still processes the whole
batch. Failures of other exception types are not caught (see the
counterexample). -/
theorem C9_per_paper_failures_caught {μ : Type} (sc : Scraper)
    (cb : Option Cb) (env : StratEnv) (cp : String → Bool) (dir : String)
    (preproc : Paper → Except PyErr Paper)
    (parser : Paper → Except PyErr μ) :
    (∀ paper g, preproc paper = .error .runtimeError →
      scrape_parse sc cb env cp dir preproc parser paper g = (.ok none, []))
    ∧ (∀ paper paper' pid g, preproc paper = .ok paper' →
        paper'.paperId = some pid →
        (scrape sc cb env cp paper' (dir ++ "/" ++ pid ++ ".pdf") g).result
          = .ok true →
        parser paper' = .error .runtimeError →
        scrape_parse sc cb env cp dir preproc parser paper g
          = (.ok none, [dir ++ "/" ++ pid ++ ".pdf"]))
    ∧ (∀ (f : Paper → Nat → Option (String × μ)) papers batch_size
        (limit : Option Nat), 0 < batch_size →
        (∀ p ∈ papers, ∀ g,
          (scrape_parse sc cb env cp dir preproc parser p g).1
            = .ok (f p g)) →
        ∃ agg, (batch_scrape sc cb env cp papers dir preproc parser
          batch_size limit).result = .ok agg
        ∧ (batch_scrape sc cb env cp papers dir preproc parser
            batch_size limit).attempted
          = (specBatch f batch_size limit (paperIdx papers 0) []).2) := by
  refine ⟨?_, ?_, ?_⟩
  · intro paper g hpre
    rw [scrape_parse, hpre]
  · intro paper paper' pid g hpre hpid hscr hparse
    rw [scrape_parse, hpre]
    dsimp only
    rw [show paper'.getPaperId = .ok pid from by rw [Paper.getPaperId, hpid]]
    dsimp only
    rw [hscr]
    dsimp only
    rw [if_pos rfl, hparse]
  · intro f papers batch_size limit hb hf
    have hb1 : batch_size - 1 + 1 = batch_size := by omega
    have h := batchLoop_refines sc cb env cp dir preproc parser f
      (batch_size - 1) limit papers hf 0 ⟨[], [], []⟩
    rw [hb1] at h
    rw [batch_scrape, if_neg (show ¬batch_size = 0 from by omega)]
    rcases hsplit : batchLoop sc cb env cp dir preproc parser
      (batch_size - 1) limit papers 0 ⟨[], [], []⟩ with ⟨stf, o⟩
    rw [hsplit] at h
    have ho : o = none := h.1
    subst ho
    dsimp only
    exact ⟨stf.aggregated, rfl, by rw [h.2.2]; simp⟩

/-- Witness for C9: with a preprocessor that always raises `RuntimeError`,
each paper is skipped without raising — `scrape_parse` yields no entry, and
`batch_scrape` over one paper returns a result map (the empty one) rather
than raising. -/
theorem C9_per_paper_failures_caught_witness :
    scrape_parse (μ := Unit) scOne none envTrue (fun _ => true) "d"
      (fun _ => .error .runtimeError) (fun _ => .ok ()) paperT 0
      = (.ok none, [])
    ∧ ∃ agg, (batch_scrape (μ := Unit) scOne none envTrue (fun _ => true)
        [paperT] "d" (fun _ => .error .runtimeError) (fun _ => .ok ())
        10 none).result = .ok agg := by
  have h := C9_per_paper_failures_caught (μ := Unit) scOne none envTrue
    (fun _ => true) "d" (fun _ => .error .runtimeError) (fun _ => .ok ())
  refine ⟨h.1 paperT 0 rfl, ?_⟩
  obtain ⟨agg, hagg, _⟩ := h.2.2 (fun _ _ => none) [paperT] 10 none
    (by omega) (fun p hp g => congrArg Prod.fst (h.1 p g rfl))
  exact ⟨agg, hagg⟩
